import Mathlib

/-!
Shallow embedding of the SEG-D reader of this repository
(src/decoder.py and src/segd_parser.py).

Modelling conventions:
- a byte is a natural number; theorems carry the hypothesis that stream
  bytes are below 256, which Python bytes objects guarantee;
- the forward-only byte stream is a list together with a cursor position;
  a read takes at most the requested number of bytes and advances the
  cursor by the number of bytes actually taken, as a Python binary file
  object does at end of file;
- Python exceptions are an explicit error type, one constructor per
  exception class raised by the source;
- IEEE-754 float and double values are represented by their big-endian
  bit patterns (naturals); where the source inspects float values
  numerically, the exact rational value of the bit pattern is used;
- Python float arithmetic on binary fractions is modelled exactly: every
  value is the rational a binary64 double holds, and every addition is
  followed by rounding to the binary64 grid (round to nearest, ties to
  even; overflow is not modelled, the sums of this program stay below 2);
- the raw capture buffers (header_block, traceh_list) are byte copies of
  what is read and do not influence parsing; they are not modelled.
-/

namespace SegD

/-- Exceptions raised by the source, one constructor per Python exception
class: ValueError (Decoder.bcd on a non-byte, array.fromstring on a length
that is not a multiple of four), SEGDNotImplemented (the UnsupportedFormat
of the specification), SEGDScanTypeError (the EmptyScanTypeHeader of the
specification), struct.error (wrong buffer length in unpack),
ZeroDivisionError, TypeError (ord of an empty slice, None arithmetic),
IndexError (sequence index out of range), KeyError (missing dict key). -/
inductive Err where
  | valueError
  | segdNotImplemented
  | segdScanTypeError
  | structError
  | zeroDivisionError
  | typeError
  | indexError
  | keyError
  deriving DecidableEq, Repr

/-- Python slicing buf[a:b] on a byte list. -/
def slice (bs : List Nat) (a b : Nat) : List Nat := (bs.take b).drop a

/-- Python indexing buf[i] on a byte list: IndexError when out of range. -/
def idx (bs : List Nat) (i : Nat) : Except Err Nat :=
  match bs[i]? with
  | some b => .ok b
  | none => .error .indexError

namespace Decoder

/-- Decoder.bcd: split one byte into its two nibbles (byte >> 4, byte & 0xF);
a value above 255 is rejected with ValueError, as in the source. -/
def bcd (byte : Nat) : Except Err (Nat × Nat) :=
  if 255 < byte then .error .valueError
  else .ok (byte / 16, byte % 16)

/-- Loop body of Decoder.decode_bcd: the source walks the bytes with a
decreasing exponent n, adding v1 * 10 ^ n + v2 * 10 ^ (n - 1) per byte. -/
def decodeBcdGo : List Nat → Nat → Except Err Nat
  | [], _ => .ok 0
  | b :: rest, n => do
    let (v1, v2) ← bcd b
    let v ← decodeBcdGo rest (n - 2)
    .ok (v1 * 10 ^ n + v2 * 10 ^ (n - 1) + v)

/-- Decoder.decode_bcd: decode arbitrary length binary coded decimals.
The initial exponent is 2 * length - 1, as in the source. -/
def decode_bcd (bs : List Nat) : Except Err Nat :=
  decodeBcdGo bs (bs.length * 2 - 1)

/-- Error-free value of decodeBcdGo, for byte input. -/
def bcdGoNat : List Nat → Nat → Nat
  | [], _ => 0
  | b :: rest, n => b / 16 * 10 ^ n + b % 16 * 10 ^ (n - 1) + bcdGoNat rest (n - 2)

/-- Error-free value of decode_bcd, for byte input. -/
def bcdNat (bs : List Nat) : Nat := bcdGoNat bs (bs.length * 2 - 1)

/-- Big-endian integer value of a byte list: what struct.unpack reads from
the buffer after zero left padding (padding does not change the value). -/
def beVal : List Nat → Nat
  | [] => 0
  | b :: rest => b * 256 ^ rest.length + beVal rest

/-- Decoder.decode_bin: decode unsigned ints.  The source zero-pads the
buffer to 4 bytes and unpacks a big-endian u32; when the buffer is longer
than 4 bytes the padding is empty and unpack raises struct.error. -/
def decode_bin (bs : List Nat) : Except Err Nat :=
  if 4 < bs.length then .error .structError
  else .ok (beVal bs)

/-- Decoder.decode_bin_bool: decode unsigned ints as booleans. -/
def decode_bin_bool (bs : List Nat) : Except Err Bool := do
  let b ← decode_bin bs
  .ok (decide (0 < b))

/-- The eight bits of one byte, most significant first; faithful to the
Python format string {:08b} for values below 256. -/
def byteBits (b : Nat) : List Nat :=
  [b / 128 % 2, b / 64 % 2, b / 32 % 2, b / 16 % 2,
   b / 8 % 2, b / 4 % 2, b / 2 % 2, b % 2]

/-- The floor of the base-2 logarithm of a positive rational: the unique
e with 2 ^ e ≤ q < 2 ^ (e + 1). -/
def qlog2 (q : ℚ) : ℤ :=
  let a := q.num.toNat
  let b := q.den
  let e0 : ℤ := (Nat.log2 a : ℤ) - (Nat.log2 b : ℤ)
  if (2 : ℚ) ^ e0 ≤ q then e0 else e0 - 1

/-- Round q to the nearest multiple of the grid spacing g, ties to the
even multiple. -/
def roundToGrid (q g : ℚ) : ℚ :=
  let n : ℤ := ⌊q / g⌋
  let r := q - n * g
  if r * 2 < g then n * g
  else if g < r * 2 then (n + 1) * g
  else if n % 2 = 0 then n * g else (n + 1) * g

/-- Round a positive rational to the binary64 grid: spacing 2 ^ (e - 52)
in the binade of exponent e, the fixed subnormal spacing 2 ^ -1074 below
the normal range.  Overflow to infinity is not modelled; every value this
program rounds stays below 2. -/
def roundPos (q : ℚ) : ℚ :=
  let e := qlog2 q
  let g : ℚ := if e ≤ -1022 then 2 ^ (-1074 : ℤ) else 2 ^ (e - 52)
  roundToGrid q g

/-- IEEE-754 binary64 rounding (round to nearest, ties to even) of an
exact rational value. -/
def roundDouble (q : ℚ) : ℚ :=
  if q = 0 then 0
  else if q < 0 then - roundPos (-q)
  else roundPos q

/-- The terms bit_n * 2 ** -n of decode_fraction, n counted from 1; the
power 2 ** -n is itself a double (exact for every exponent this program
reaches). -/
def fracTerms (bits : List Nat) : List ℚ :=
  bits.enum.map (fun p => (p.2 : ℚ) * roundDouble (1 / 2 ^ (p.1 + 1)))

/-- The Python builtin sum: left-to-right addition starting from 0, each
partial sum rounded to binary64. -/
def floatSum (ts : List ℚ) : ℚ := ts.foldl (fun acc t => roundDouble (acc + t)) 0

/-- Decoder.decode_fraction: decode positive binary fractions.  The float
arithmetic of the source is modelled exactly: the generator terms and
every partial sum of the builtin sum are rounded to the binary64 grid. -/
def decode_fraction (bs : List Nat) : ℚ :=
  floatSum (fracTerms (bs.flatMap byteBits))

/-- NaN test on a big-endian 32-bit float pattern: exponent all ones and
a nonzero mantissa. -/
def isNaN32 (bits : Nat) : Bool :=
  (bits / 2 ^ 23 % 256 == 255) && (bits % 2 ^ 23 != 0)

/-- Decoder.decode_flt: decode single-precision floats (represented by
their 32-bit pattern); zero-pad to 4 bytes, struct.error beyond 4 bytes,
NaN normalized to absent. -/
def decode_flt (bs : List Nat) : Except Err (Option Nat) :=
  if 4 < bs.length then .error .structError
  else if isNaN32 (beVal bs) then .ok none
  else .ok (some (beVal bs))

/-- Decoder.decode_dbl: decode double-precision floats (represented by
their 64-bit pattern); unpack of a big-endian f64 needs exactly 8 bytes. -/
def decode_dbl (bs : List Nat) : Except Err Nat :=
  if bs.length = 8 then .ok (beVal bs) else .error .structError

/-- Membership in Python string.printable, by character code: the ASCII
range 32-126 plus the whitespace codes 9-13. -/
def printableAscii (c : Nat) : Bool :=
  (decide (32 ≤ c) && decide (c ≤ 126)) || (decide (9 ≤ c) && decide (c ≤ 13))

/-- Decoder.decode_asc: keep the printable bytes; an empty result is
reported as absent. -/
def decode_asc (bs : List Nat) : Option (List Nat) :=
  let s := bs.filter printableAscii
  if s.isEmpty then none else some s

/-- Decoder.band_code: band codes matching sample rate (character codes of
G, D, E, S); below 10 the source falls through and returns None. -/
def band_code (sample_rate : ℚ) : Option Char :=
  if 1000 ≤ sample_rate then some (Char.ofNat 71)
  else if 250 ≤ sample_rate then some (Char.ofNat 68)
  else if 80 ≤ sample_rate then some (Char.ofNat 69)
  else if 10 ≤ sample_rate then some (Char.ofNat 83)
  else none

end Decoder

/-- State of the open byte stream: contents and cursor position. -/
structure St where
  data : List Nat
  pos : Nat
  deriving DecidableEq, Repr

/-- Stateful fallible computation over the byte stream.  An exception
leaves the cursor where it was when the exception was raised, as a Python
file object does. -/
def M (α : Type) : Type := St → Except Err α × St

def M.pureM (a : α) : M α := fun s => (.ok a, s)

def M.bindM (x : M α) (f : α → M β) : M β := fun s =>
  match x s with
  | (.ok a, s1) => f a s1
  | (.error e, s1) => (.error e, s1)

instance : Monad M where
  pure := M.pureM
  bind := M.bindM

/-- Raise a Python exception. -/
def throwM (e : Err) : M α := fun s => (.error e, s)

/-- Lift a pure fallible decode into the stream monad. -/
def liftE (x : Except Err α) : M α := fun s => (x, s)

/-- self._byte_stream.read(n): take at most n bytes at the cursor and
advance by the number of bytes actually taken. -/
def readBytes (n : Nat) : M (List Nat) := fun s =>
  let buf := (s.data.drop s.pos).take n
  (.ok buf, ⟨s.data, s.pos + buf.length⟩)

/-- Python ord applied to a one-byte slice; any other slice length raises
TypeError. -/
def ord1 (bs : List Nat) : Except Err Nat :=
  match bs with
  | [b] => .ok b
  | _ => .error .typeError

/-- Timestamp components handed to obspy UTCDateTime (year, julian day,
hour, minute, second).  Validation by the external obspy library is not
modelled; no claim depends on it. -/
structure TimeStamp where
  year : Nat
  julday : Nat
  hour : Nat
  minute : Nat
  second : Nat
  deriving DecidableEq, Repr

/-- General header block 1 (SegDParser._read_general_hdr1). -/
structure GenHdr1 where
  file_number : Nat
  format_code : Nat
  general_constants : List Nat
  n_additional_blocks : Nat
  time : TimeStamp
  manufacture_code : Nat
  manufacture_serial_number : Nat
  bytes_per_scan : Nat
  base_scan_interval_in_ms : ℚ
  polarity : Nat
  record_length : Option Nat
  scan_type_per_record : Nat
  n_channel_sets_per_record : Nat
  n_sample_skew_32bit_extensions : Nat
  extended_header_length : Nat
  external_header_length : Option Nat
  deriving DecidableEq, Repr

/-- Field decoding of general header block 1, on the 32-byte buffer read by
SegDParser._read_general_hdr1.  The format code check comes right after the
file number, before any other field is decoded, as in the source. -/
def decodeGenHdr1 (buf : List Nat) : Except Err GenHdr1 := do
  let file_number ← Decoder.decode_bcd (slice buf 0 2)
  let fc ← Decoder.decode_bcd (slice buf 2 4)
  if fc ≠ 8058 then throw .segdNotImplemented
  let format_code ← Decoder.decode_bcd (slice buf 2 4)
  let general_constants ← (slice buf 4 10).mapM (fun b => Decoder.decode_bcd [b])
  let y ← Decoder.decode_bcd (slice buf 10 11)
  let b11 ← idx buf 11
  let (nblocks, jday1) ← Decoder.bcd b11
  let jday2 ← Decoder.decode_bcd (slice buf 12 13)
  let hour ← Decoder.decode_bcd (slice buf 13 14)
  let minute ← Decoder.decode_bcd (slice buf 14 15)
  let second ← Decoder.decode_bcd (slice buf 15 16)
  let manufacture_code ← Decoder.decode_bcd (slice buf 16 17)
  let manufacture_serial_number ← Decoder.decode_bcd (slice buf 17 19)
  let bytes_per_scan ← Decoder.decode_bcd (slice buf 19 22)
  let bsiRaw ← Decoder.decode_bcd (slice buf 22 23)
  let bsi : ℚ ←
    if bsiRaw < 10 then
      if bsiRaw = 0 then throw .zeroDivisionError
      else pure (1 / (bsiRaw : ℚ))
    else pure ((bsiRaw : ℚ) / 10)
  let b23 ← idx buf 23
  let (pol, _) ← Decoder.bcd b23
  let b25 ← idx buf 25
  let (_rec_type, recLenHigh) ← Decoder.bcd b25
  let recLenLow ← Decoder.decode_bin (slice buf 26 27)
  let recLen := 256 * recLenHigh + recLenLow
  let record_length : Option Nat := if recLen = 0xFFF then none else some recLen
  let scan_type_per_record ← Decoder.decode_bcd (slice buf 27 28)
  let n_channel_sets_per_record ← Decoder.decode_bcd (slice buf 28 29)
  let n_sample_skew ← Decoder.decode_bcd (slice buf 29 30)
  let extended_header_length ← Decoder.decode_bcd (slice buf 30 31)
  let ehlRaw ← Decoder.decode_bcd (slice buf 31 32)
  let external_header_length : Option Nat := if ehlRaw = 0xFF then none else some ehlRaw
  .ok {
    file_number := file_number
    format_code := format_code
    general_constants := general_constants
    n_additional_blocks := nblocks
    time := ⟨y + 2000, jday1 * 100 + jday2, hour, minute, second⟩
    manufacture_code := manufacture_code
    manufacture_serial_number := manufacture_serial_number
    bytes_per_scan := bytes_per_scan
    base_scan_interval_in_ms := bsi
    polarity := pol
    record_length := record_length
    scan_type_per_record := scan_type_per_record
    n_channel_sets_per_record := n_channel_sets_per_record
    n_sample_skew_32bit_extensions := n_sample_skew
    extended_header_length := extended_header_length
    external_header_length := external_header_length }

/-- General header block 2 (SegDParser._read_general_hdr2). -/
structure GenHdr2 where
  expanded_file_number : Nat
  external_header_blocks : Nat
  segd_revision_number : ℚ
  no_blocks_of_general_trailer : Nat
  extended_record_length_in_ms : Nat
  general_header_block_number : Nat
  deriving DecidableEq, Repr

/-- Field decoding of general header block 2 on its 32-byte buffer. -/
def decodeGenHdr2 (buf : List Nat) : Except Err GenHdr2 := do
  let expanded_file_number ← Decoder.decode_bin (slice buf 0 3)
  let external_header_blocks ← Decoder.decode_bin (slice buf 7 9)
  let r1 ← ord1 (slice buf 10 11)
  let r2 ← ord1 (slice buf 11 12)
  let no_blocks ← Decoder.decode_bin (slice buf 12 14)
  let erl ← Decoder.decode_bin (slice buf 14 17)
  let ghbn ← Decoder.decode_bin (slice buf 18 19)
  .ok {
    expanded_file_number := expanded_file_number
    external_header_blocks := external_header_blocks
    segd_revision_number := (r1 : ℚ) + (r2 : ℚ) / 10
    no_blocks_of_general_trailer := no_blocks
    extended_record_length_in_ms := erl
    general_header_block_number := ghbn }

/-- General header block 3 (SegDParser._read_general_hdr3). -/
structure GenHdr3 where
  expanded_file_number : Nat
  source_line_number : ℚ
  source_point_number : ℚ
  phase_control : Nat
  vibrator_type : Nat
  phase_angle : Nat
  general_header_block_number : Nat
  source_set_number : Nat
  deriving DecidableEq, Repr

/-- Field decoding of general header block 3 on its 32-byte buffer. -/
def decodeGenHdr3 (buf : List Nat) : Except Err GenHdr3 := do
  let expanded_file_number ← Decoder.decode_bin (slice buf 0 3)
  let slnInt ← Decoder.decode_bin (slice buf 3 6)
  let sln : ℚ := (slnInt : ℚ) + Decoder.decode_fraction (slice buf 6 8)
  let spnInt ← Decoder.decode_bin (slice buf 8 11)
  let spn : ℚ := (spnInt : ℚ) + Decoder.decode_fraction (slice buf 11 13)
  let phase_control ← Decoder.decode_bin (slice buf 14 15)
  let vibrator_type ← Decoder.decode_bin (slice buf 15 16)
  let phase_angle ← Decoder.decode_bin (slice buf 16 18)
  let ghbn ← Decoder.decode_bin (slice buf 18 19)
  let source_set_number ← Decoder.decode_bin (slice buf 19 20)
  .ok {
    expanded_file_number := expanded_file_number
    source_line_number := sln
    source_point_number := spn
    phase_control := phase_control
    vibrator_type := vibrator_type
    phase_angle := phase_angle
    general_header_block_number := ghbn
    source_set_number := source_set_number }

/-- Scan type header (SegDParser._read_sch).  Field names with characters
that Lean does not allow in identifiers are shortened in the obvious way. -/
structure Sch where
  scan_type_header : Nat
  channel_set_number : Nat
  channel_set_starting_time : Nat
  channel_set_end_time : Nat
  number_of_channels : Nat
  channel_type_id : Nat
  number_of_subscans_exponent : Nat
  channel_gain_control_method : Nat
  alias_filter_freq : Nat
  alias_filter_slope : Nat
  low_cut_filter_freq : Nat
  low_cut_filter_slope : Nat
  first_notch_freq : Nat
  second_notch_freq : Nat
  third_notch_freq : Nat
  extended_channel_set_number : Nat
  extended_header_flag : Nat
  trace_header_extensions : Nat
  vertical_stack : Nat
  streamer_cable_number : Nat
  array_forming : Nat
  deriving DecidableEq, Repr

/-- Field decoding of one scan type header block on its 32-byte buffer.
A buffer of all zero bytes raises SEGDScanTypeError before any field is
decoded, as in the source. -/
def decodeSch (buf : List Nat) : Except Err Sch := do
  if buf.sum = 0 then throw .segdScanTypeError
  let scan_type_header ← Decoder.decode_bcd (slice buf 0 1)
  let channel_set_number ← Decoder.decode_bcd (slice buf 1 2)
  let starting ← Decoder.decode_bin (slice buf 2 4)
  let endTime ← Decoder.decode_bin (slice buf 4 6)
  let _dm ← Decoder.decode_bin ((slice buf 6 8).reverse)
  let number_of_channels ← Decoder.decode_bcd (slice buf 8 10)
  let b10 ← idx buf 10
  let (ctid, _) ← Decoder.bcd b10
  let b11 ← idx buf 11
  let (nse, cgcm) ← Decoder.bcd b11
  let aff ← Decoder.decode_bcd (slice buf 12 14)
  let afs ← Decoder.decode_bcd (slice buf 14 16)
  let lcf ← Decoder.decode_bcd (slice buf 16 18)
  let lcs ← Decoder.decode_bcd (slice buf 18 20)
  let n1 ← Decoder.decode_bcd (slice buf 20 22)
  let n2 ← Decoder.decode_bcd (slice buf 22 24)
  let n3 ← Decoder.decode_bcd (slice buf 24 26)
  let ecsn ← Decoder.decode_bcd (slice buf 26 28)
  let b28 ← idx buf 28
  let (ehf, the) ← Decoder.bcd b28
  let vertical_stack ← Decoder.decode_bin (slice buf 29 30)
  let streamer ← Decoder.decode_bin (slice buf 30 31)
  let array_forming ← Decoder.decode_bin (slice buf 31 32)
  .ok {
    scan_type_header := scan_type_header
    channel_set_number := channel_set_number
    channel_set_starting_time := starting
    channel_set_end_time := endTime
    number_of_channels := number_of_channels
    channel_type_id := ctid
    number_of_subscans_exponent := nse
    channel_gain_control_method := cgcm
    alias_filter_freq := aff
    alias_filter_slope := afs
    low_cut_filter_freq := lcf
    low_cut_filter_slope := lcs
    first_notch_freq := n1
    second_notch_freq := n2
    third_notch_freq := n3
    extended_channel_set_number := ecsn
    extended_header_flag := ehf
    trace_header_extensions := the
    vertical_stack := vertical_stack
    streamer_cable_number := streamer
    array_forming := array_forming }

/-- Overlay region of the extended header: which keys the source adds to
the dict depending on the noise elimination type discriminant. -/
inductive Overlay where
  | nothing
  | diversityStack (number_of_windows : Nat)
  | historic (range taperLen2Exp thresholdInit zeroingLen : Nat)
  | enhancedDiversityStack (window_length overlap : Nat)
  deriving DecidableEq, Repr

/-- Extended header, SERCEL format (SegDParser._read_extended_header).
Float and double fields hold bit patterns; NaN floats are absent. -/
structure Extdh where
  acquisition_length_in_ms : Nat
  sample_rate_in_us : Nat
  total_number_of_traces : Nat
  number_of_auxes : Nat
  number_of_seis_traces : Nat
  number_of_dead_seis_traces : Nat
  number_of_live_seis_traces : Nat
  number_of_samples_in_trace : Nat
  shot_number : Nat
  TB_window_in_s : Option Nat
  spread_first_line : Nat
  spread_first_number : Nat
  spread_number : Nat
  time_break_in_us : Nat
  uphole_time_in_us : Nat
  blaster_id : Nat
  blaster_status : Nat
  refraction_delay_in_ms : Nat
  TB_to_T0_time_in_us : Nat
  internal_time_break : Bool
  prestack_within_field_units : Bool
  overlay : Overlay
  low_trace_percentage : Nat
  low_trace_value_in_dB : Nat
  noisy_trace_percentage : Nat
  acquisition_type_tables : List Nat
  threshold_type_tables : List Nat
  stacking_fold : Nat
  record_length_in_ms : Nat
  autocorrelation_peak_time_in_ms : Nat
  correlation_pilot_number : Nat
  pilot_length_in_ms : Nat
  sweep_length_in_ms : Nat
  acquisition_number : Nat
  max_of_max_aux : Option Nat
  max_of_max_seis : Option Nat
  dump_stacking_fold : Nat
  tape_label : Option (List Nat)
  tape_number : Nat
  software_version : Option (List Nat)
  date : Option (List Nat)
  source_easting : Nat
  source_northing : Nat
  source_elevation : Option Nat
  slip_sweep_mode_used : Bool
  files_per_tape : Nat
  file_count : Nat
  acquisition_error_description : Option (List Nat)
  stack_is_dumped : Bool
  stack_sign : Int
  PRM_tilt_correction_used : Bool
  swath_name : Option (List Nat)
  operating_mode : List Nat
  no_log : Bool
  listening_time_in_ms : Nat
  swath_id : Nat
  seismic_trace_offset_removal_is_disabled : Bool
  deriving DecidableEq, Repr

/-- Field decoding of the extended header on the buffer of
extended_header_length * 32 bytes read by the source. -/
def decodeExtdh (buf : List Nat) : Except Err Extdh := do
  let acquisition_length ← Decoder.decode_bin (slice buf 0 4)
  let sample_rate ← Decoder.decode_bin (slice buf 4 8)
  let total_traces ← Decoder.decode_bin (slice buf 8 12)
  let number_of_auxes ← Decoder.decode_bin (slice buf 12 16)
  let n_seis ← Decoder.decode_bin (slice buf 16 20)
  let n_dead ← Decoder.decode_bin (slice buf 20 24)
  let n_live ← Decoder.decode_bin (slice buf 24 28)
  let _tos ← Decoder.decode_bin (slice buf 28 32)
  let n_samples ← Decoder.decode_bin (slice buf 32 36)
  let shot_number ← Decoder.decode_bin (slice buf 36 40)
  let tb_window ← Decoder.decode_flt (slice buf 40 44)
  let _trt ← Decoder.decode_bin (slice buf 44 48)
  let spread_first_line ← Decoder.decode_bin (slice buf 48 52)
  let spread_first_number ← Decoder.decode_bin (slice buf 52 56)
  let spread_number ← Decoder.decode_bin (slice buf 56 60)
  let _st ← Decoder.decode_bin (slice buf 60 64)
  let time_break ← Decoder.decode_bin (slice buf 64 68)
  let uphole_time ← Decoder.decode_bin (slice buf 68 72)
  let blaster_id ← Decoder.decode_bin (slice buf 72 76)
  let blaster_status ← Decoder.decode_bin (slice buf 76 80)
  let refraction_delay ← Decoder.decode_bin (slice buf 80 84)
  let tb_to_t0 ← Decoder.decode_bin (slice buf 84 88)
  let internal_time_break ← Decoder.decode_bin_bool (slice buf 88 92)
  let prestack ← Decoder.decode_bin_bool (slice buf 92 96)
  let net ← Decoder.decode_bin (slice buf 96 100)
  let low_trace_percentage ← Decoder.decode_bin (slice buf 100 104)
  let low_trace_value ← Decoder.decode_bin (slice buf 104 108)
  let value1 ← Decoder.decode_bin (slice buf 108 112)
  let value2 ← Decoder.decode_bin (slice buf 112 116)
  let overlay : Overlay ←
    if net = 2 then pure (.diversityStack value1)
    else if net = 3 then do
      let hr ← Decoder.decode_bin (slice buf 120 124)
      let ht ← Decoder.decode_bin (slice buf 124 128)
      let hi ← Decoder.decode_bin (slice buf 132 136)
      let hz ← Decoder.decode_bin (slice buf 136 140)
      pure (.historic hr ht hi hz)
    else if net = 4 then pure (.enhancedDiversityStack value1 value2)
    else pure .nothing
  let noisy_trace_percentage ← Decoder.decode_bin (slice buf 116 120)
  let _thv ← Decoder.decode_bin (slice buf 128 132)
  let _top ← Decoder.decode_bin (slice buf 140 144)
  let acquisition_type_tables ←
    (List.range 32).mapM (fun n => Decoder.decode_bin (slice buf (144 + n * 4) (144 + (n + 1) * 4)))
  let threshold_type_tables ←
    (List.range 32).mapM (fun n => Decoder.decode_bin (slice buf (272 + n * 4) (272 + (n + 1) * 4)))
  let stacking_fold ← Decoder.decode_bin (slice buf 400 404)
  let record_length ← Decoder.decode_bin (slice buf 484 488)
  let autocorrelation_peak ← Decoder.decode_bin (slice buf 488 492)
  let correlation_pilot_number ← Decoder.decode_bin (slice buf 496 500)
  let pilot_length ← Decoder.decode_bin (slice buf 500 504)
  let sweep_length ← Decoder.decode_bin (slice buf 504 508)
  let acquisition_number ← Decoder.decode_bin (slice buf 508 512)
  let max_of_max_aux ← Decoder.decode_flt (slice buf 512 516)
  let max_of_max_seis ← Decoder.decode_flt (slice buf 516 520)
  let dump_stacking_fold ← Decoder.decode_bin (slice buf 520 524)
  let tape_label := Decoder.decode_asc (slice buf 524 540)
  let tape_number ← Decoder.decode_bin (slice buf 540 544)
  let software_version := Decoder.decode_asc (slice buf 544 560)
  let date := Decoder.decode_asc (slice buf 560 572)
  let source_easting ← Decoder.decode_dbl (slice buf 572 580)
  let source_northing ← Decoder.decode_dbl (slice buf 580 588)
  let source_elevation ← Decoder.decode_flt (slice buf 588 592)
  let slip_sweep ← Decoder.decode_bin_bool (slice buf 592 596)
  let files_per_tape ← Decoder.decode_bin (slice buf 596 600)
  let file_count ← Decoder.decode_bin (slice buf 600 604)
  let acq_error := Decoder.decode_asc (slice buf 604 764)
  let _ft ← Decoder.decode_bin (slice buf 764 768)
  let stack_is_dumped ← Decoder.decode_bin_bool (slice buf 768 772)
  let ssRaw ← Decoder.decode_bin (slice buf 772 776)
  let stack_sign : Int := if ssRaw = 2 then -1 else (ssRaw : Int)
  let prm ← Decoder.decode_bin_bool (slice buf 776 780)
  let swath_name := Decoder.decode_asc (slice buf 780 844)
  let _om ← Decoder.decode_bin (slice buf 844 848)
  let no_log ← Decoder.decode_bin_bool (slice buf 852 856)
  let listening_time ← Decoder.decode_bin (slice buf 856 860)
  let _tod ← Decoder.decode_bin (slice buf 860 864)
  let swath_id ← Decoder.decode_bin (slice buf 868 872)
  let offset_removal ← Decoder.decode_bin_bool (slice buf 872 876)
  .ok {
    acquisition_length_in_ms := acquisition_length
    sample_rate_in_us := sample_rate
    total_number_of_traces := total_traces
    number_of_auxes := number_of_auxes
    number_of_seis_traces := n_seis
    number_of_dead_seis_traces := n_dead
    number_of_live_seis_traces := n_live
    number_of_samples_in_trace := n_samples
    shot_number := shot_number
    TB_window_in_s := tb_window
    spread_first_line := spread_first_line
    spread_first_number := spread_first_number
    spread_number := spread_number
    time_break_in_us := time_break
    uphole_time_in_us := uphole_time
    blaster_id := blaster_id
    blaster_status := blaster_status
    refraction_delay_in_ms := refraction_delay
    TB_to_T0_time_in_us := tb_to_t0
    internal_time_break := internal_time_break
    prestack_within_field_units := prestack
    overlay := overlay
    low_trace_percentage := low_trace_percentage
    low_trace_value_in_dB := low_trace_value
    noisy_trace_percentage := noisy_trace_percentage
    acquisition_type_tables := acquisition_type_tables
    threshold_type_tables := threshold_type_tables
    stacking_fold := stacking_fold
    record_length_in_ms := record_length
    autocorrelation_peak_time_in_ms := autocorrelation_peak
    correlation_pilot_number := correlation_pilot_number
    pilot_length_in_ms := pilot_length
    sweep_length_in_ms := sweep_length
    acquisition_number := acquisition_number
    max_of_max_aux := max_of_max_aux
    max_of_max_seis := max_of_max_seis
    dump_stacking_fold := dump_stacking_fold
    tape_label := tape_label
    tape_number := tape_number
    software_version := software_version
    date := date
    source_easting := source_easting
    source_northing := source_northing
    source_elevation := source_elevation
    slip_sweep_mode_used := slip_sweep
    files_per_tape := files_per_tape
    file_count := file_count
    acquisition_error_description := acq_error
    stack_is_dumped := stack_is_dumped
    stack_sign := stack_sign
    PRM_tilt_correction_used := prm
    swath_name := swath_name
    operating_mode := []
    no_log := no_log
    listening_time_in_ms := listening_time
    swath_id := swath_id
    seismic_trace_offset_removal_is_disabled := offset_removal }

/-- The 20-byte trace header (SegDParser._read_traceh).  The source
normalizes a decoded file number equal to 0xFFFF to absent, hence the
Option type of that field. -/
structure Traceh where
  file_number : Option Nat
  scan_type_number : Nat
  channel_set_number : Nat
  trace_number : Nat
  first_timing_word_in_ms : ℚ
  trace_header_extension : Nat
  sample_skew : Nat
  trace_edit : Nat
  time_break_window : ℚ
  extended_channel_set_number : Nat
  extended_file_number : Nat
  deriving DecidableEq, Repr

/-- Field decoding of the 20-byte trace header buffer. -/
def decodeTraceh (buf : List Nat) : Except Err Traceh := do
  let fnRaw ← Decoder.decode_bcd (slice buf 0 2)
  let file_number : Option Nat := if fnRaw = 0xFFFF then none else some fnRaw
  let scan_type_number ← Decoder.decode_bcd (slice buf 2 3)
  let channel_set_number ← Decoder.decode_bcd (slice buf 3 4)
  let trace_number ← Decoder.decode_bcd (slice buf 4 6)
  let ftw ← Decoder.decode_bin (slice buf 6 9)
  let trace_header_extension ← Decoder.decode_bin (slice buf 9 10)
  let sample_skew ← Decoder.decode_bin (slice buf 10 11)
  let trace_edit ← Decoder.decode_bin (slice buf 11 12)
  let tbw1 ← Decoder.decode_bin (slice buf 12 14)
  let tbw2 ← Decoder.decode_bin (slice buf 14 15)
  let ecsn ← Decoder.decode_bin (slice buf 15 16)
  let extended_file_number ← Decoder.decode_bin (slice buf 17 20)
  .ok {
    file_number := file_number
    scan_type_number := scan_type_number
    channel_set_number := channel_set_number
    trace_number := trace_number
    first_timing_word_in_ms := (ftw : ℚ) / 256
    trace_header_extension := trace_header_extension
    sample_skew := sample_skew
    trace_edit := trace_edit
    time_break_window := (tbw1 : ℚ) + (tbw2 : ℚ) / 100
    extended_channel_set_number := ecsn
    extended_file_number := extended_file_number }

/-- Trace header extension block 1, SEGD standard
(SegDParser._read_traceh_eb1).  Receiver line and point numbers equal to
0xFFFFFF are normalized to absent. -/
structure Eb1 where
  receiver_line_number : Option Nat
  receiver_point_number : Option Nat
  receiver_point_index : Nat
  number_of_samples_per_trace : Nat
  deriving DecidableEq, Repr

def decodeEb1 (buf : List Nat) : Except Err Eb1 := do
  let rlnRaw ← Decoder.decode_bin (slice buf 0 3)
  let rln : Option Nat := if rlnRaw = 0xFFFFFF then none else some rlnRaw
  let rpnRaw ← Decoder.decode_bin (slice buf 3 6)
  let rpn : Option Nat := if rpnRaw = 0xFFFFFF then none else some rpnRaw
  let rpi ← Decoder.decode_bin (slice buf 6 7)
  let nspt ← Decoder.decode_bin (slice buf 7 10)
  .ok ⟨rln, rpn, rpi, nspt⟩

/-- Trace header extension block 2, SERCEL format
(SegDParser._read_traceh_eb2). -/
structure Eb2 where
  receiver_point_easting : Nat
  receiver_point_northing : Nat
  receiver_point_elevation : Option Nat
  sensor_type_number : Nat
  DSD_identification_number : Nat
  extended_trace_number : Nat
  deriving DecidableEq, Repr

def decodeEb2 (buf : List Nat) : Except Err Eb2 := do
  let easting ← Decoder.decode_dbl (slice buf 0 8)
  let northing ← Decoder.decode_dbl (slice buf 8 16)
  let elevation ← Decoder.decode_flt (slice buf 16 20)
  let sensor_type ← Decoder.decode_bin (slice buf 20 21)
  let dsd ← Decoder.decode_bin (slice buf 24 28)
  let etn ← Decoder.decode_bin (slice buf 28 32)
  .ok ⟨easting, northing, elevation, sensor_type, dsd, etn⟩

/-- Trace header extension block 3, SERCEL format
(SegDParser._read_traceh_eb3). -/
structure Eb3 where
  resistance_low_limit : Option Nat
  resistance_high_limit : Option Nat
  resistance_value_in_ohms : Option Nat
  tilt_limit : Option Nat
  tilt_value : Option Nat
  resistance_error : Bool
  tilt_error : Bool
  deriving DecidableEq, Repr

def decodeEb3 (buf : List Nat) : Except Err Eb3 := do
  let rl ← Decoder.decode_flt (slice buf 0 4)
  let rh ← Decoder.decode_flt (slice buf 4 8)
  let rv ← Decoder.decode_flt (slice buf 8 12)
  let tl ← Decoder.decode_flt (slice buf 12 16)
  let tv ← Decoder.decode_flt (slice buf 16 20)
  let re ← Decoder.decode_bin_bool (slice buf 20 21)
  let te ← Decoder.decode_bin_bool (slice buf 21 22)
  .ok ⟨rl, rh, rv, tl, tv, re, te⟩

/-- Trace header extension block 4, SERCEL format
(SegDParser._read_traceh_eb4). -/
structure Eb4 where
  capacitance_low_limit : Option Nat
  capacitance_high_limit : Option Nat
  capacitance_value_in_nano_farads : Option Nat
  cutoff_low_limit : Option Nat
  cutoff_high_limit : Option Nat
  cutoff_value_in_Hz : Option Nat
  capacitance_error : Bool
  cutoff_error : Bool
  deriving DecidableEq, Repr

def decodeEb4 (buf : List Nat) : Except Err Eb4 := do
  let cl ← Decoder.decode_flt (slice buf 0 4)
  let ch ← Decoder.decode_flt (slice buf 4 8)
  let cv ← Decoder.decode_flt (slice buf 8 12)
  let col ← Decoder.decode_flt (slice buf 12 16)
  let coh ← Decoder.decode_flt (slice buf 16 20)
  let cov ← Decoder.decode_flt (slice buf 20 24)
  let ce ← Decoder.decode_bin_bool (slice buf 24 25)
  let coe ← Decoder.decode_bin_bool (slice buf 25 26)
  .ok ⟨cl, ch, cv, col, coh, cov, ce, coe⟩

/-- Trace header extension block 5, SERCEL format
(SegDParser._read_traceh_eb5). -/
structure Eb5 where
  leakage_limit : Option Nat
  leakage_value_in_megahoms : Option Nat
  instrument_longitude : Nat
  instrument_latitude : Nat
  leakage_error : Bool
  instrument_horizontal_position_accuracy_in_mm : Nat
  instrument_elevation_in_mm : Option Nat
  deriving DecidableEq, Repr

def decodeEb5 (buf : List Nat) : Except Err Eb5 := do
  let ll ← Decoder.decode_flt (slice buf 0 4)
  let lv ← Decoder.decode_flt (slice buf 4 8)
  let lon ← Decoder.decode_dbl (slice buf 8 16)
  let lat ← Decoder.decode_dbl (slice buf 16 24)
  let le ← Decoder.decode_bin_bool (slice buf 24 25)
  let acc ← Decoder.decode_bin (slice buf 25 28)
  let elev ← Decoder.decode_flt (slice buf 28 32)
  .ok ⟨ll, lv, lon, lat, le, acc, elev⟩

/-- Trace header extension block 6, SERCEL format
(SegDParser._read_traceh_eb6). -/
structure Eb6 where
  unit_serial_number : Nat
  channel_number : Nat
  assembly_type : Nat
  assembly_serial_number : Nat
  location_in_assembly : Nat
  sensor_sensitivity : Option Nat
  deriving DecidableEq, Repr

def decodeEb6 (buf : List Nat) : Except Err Eb6 := do
  let _ut ← Decoder.decode_bin (slice buf 0 1)
  let usn ← Decoder.decode_bin (slice buf 1 4)
  let cn ← Decoder.decode_bin (slice buf 4 5)
  let at_ ← Decoder.decode_bin (slice buf 8 9)
  let asn ← Decoder.decode_bin (slice buf 9 12)
  let lia ← Decoder.decode_bin (slice buf 12 13)
  let _st ← Decoder.decode_bin (slice buf 16 17)
  let _ct ← Decoder.decode_bin (slice buf 17 18)
  let sens ← Decoder.decode_flt (slice buf 20 24)
  .ok ⟨usn, cn, at_, asn, lia, sens⟩

/-- Trace header extension block 7, SERCEL format
(SegDParser._read_traceh_eb7); most fields are commented out in the
source and only four are decoded into the dict. -/
structure Eb7 where
  trace_max_value : Option Nat
  trace_max_time_in_us : Nat
  number_of_interpolations : Nat
  seismic_trace_offset_value : Nat
  deriving DecidableEq, Repr

def decodeEb7 (buf : List Nat) : Except Err Eb7 := do
  let _cut ← Decoder.decode_bin (slice buf 0 1)
  let tmv ← Decoder.decode_flt (slice buf 16 20)
  let tmt ← Decoder.decode_bin (slice buf 20 24)
  let ni ← Decoder.decode_bin (slice buf 24 28)
  let stov ← Decoder.decode_bin (slice buf 28 32)
  .ok ⟨tmv, tmt, ni, stov⟩

/-- The per-trace header dict after the extension merge loop: the base
trace header plus the extension blocks whose fields were merged in (dict
update adds the fields of block i exactly when block i was read). -/
structure TraceRec where
  base : Traceh
  eb1 : Option Eb1
  eb2 : Option Eb2
  eb3 : Option Eb3
  eb4 : Option Eb4
  eb5 : Option Eb5
  eb6 : Option Eb6
  eb7 : Option Eb7
  deriving DecidableEq, Repr

/-- SegDParser._read_general_hdr1: read 32 bytes, decode the fields. -/
def readGeneralHdr1 : M GenHdr1 := do
  let buf ← readBytes 32
  liftE (decodeGenHdr1 buf)

/-- SegDParser._read_general_hdr2. -/
def readGeneralHdr2 : M GenHdr2 := do
  let buf ← readBytes 32
  liftE (decodeGenHdr2 buf)

/-- SegDParser._read_general_hdr3. -/
def readGeneralHdr3 : M GenHdr3 := do
  let buf ← readBytes 32
  liftE (decodeGenHdr3 buf)

/-- Python dict assignment sch[k] = v on an insertion-ordered table:
overwrite in place when the key exists, append otherwise. -/
def dictInsert (t : List (Nat × Sch)) (k : Nat) (v : Sch) : List (Nat × Sch) :=
  if t.any (fun p => decide (p.1 = k)) then
    t.map (fun p => if p.1 = k then (k, v) else p)
  else t ++ [(k, v)]

/-- Python dict lookup sch[k], as an option. -/
def dictGet (t : List (Nat × Sch)) (k : Nat) : Option Sch :=
  (t.find? (fun p => decide (p.1 = k))).map (fun p => p.2)

/-- The scan type header loop of read_segd: for each declared channel set
read one 32-byte block; a SEGDScanTypeError (all-zero block) is caught and
the block is skipped; any other exception propagates; a decoded block is
inserted keyed by its channel set number. -/
def readSchLoop : Nat → List (Nat × Sch) → M (List (Nat × Sch))
  | 0, table => pure table
  | n + 1, table => do
    let buf ← readBytes 32
    match decodeSch buf with
    | .error .segdScanTypeError => readSchLoop n table
    | .error e => throwM e
    | .ok s => readSchLoop n (dictInsert table s.channel_set_number s)

/-- SegDParser._read_extended_header. -/
def readExtendedHeader (size : Nat) : M Extdh := do
  let buf ← readBytes size
  liftE (decodeExtdh buf)

/-- SegDParser._read_external_header: the buffer is decoded as filtered
ASCII text. -/
def readExternalHeader (size : Nat) : M (Option (List Nat)) := do
  let buf ← readBytes size
  pure (Decoder.decode_asc buf)

/-- SegDParser._read_traceh: read 20 bytes, decode the fields. -/
def readTraceh : M Traceh := do
  let buf ← readBytes 20
  liftE (decodeTraceh buf)

def readTracehEb1 : M Eb1 := do
  let buf ← readBytes 32
  liftE (decodeEb1 buf)

def readTracehEb2 : M Eb2 := do
  let buf ← readBytes 32
  liftE (decodeEb2 buf)

def readTracehEb3 : M Eb3 := do
  let buf ← readBytes 32
  liftE (decodeEb3 buf)

def readTracehEb4 : M Eb4 := do
  let buf ← readBytes 32
  liftE (decodeEb4 buf)

def readTracehEb5 : M Eb5 := do
  let buf ← readBytes 32
  liftE (decodeEb5 buf)

def readTracehEb6 : M Eb6 := do
  let buf ← readBytes 32
  liftE (decodeEb6 buf)

def readTracehEb7 : M Eb7 := do
  let buf ← readBytes 32
  liftE (decodeEb7 buf)

/-- One iteration of the extension loop in _read_trace_data_block:
_read_traceh_eb[n]() followed by the dict update.  Indexing the
seven-element method list out of range raises IndexError, as in Python. -/
def readEbStep (i : Nat) (r : TraceRec) : M TraceRec :=
  match i with
  | 0 => do let e ← readTracehEb1; pure { r with eb1 := some e }
  | 1 => do let e ← readTracehEb2; pure { r with eb2 := some e }
  | 2 => do let e ← readTracehEb3; pure { r with eb3 := some e }
  | 3 => do let e ← readTracehEb4; pure { r with eb4 := some e }
  | 4 => do let e ← readTracehEb5; pure { r with eb5 := some e }
  | 5 => do let e ← readTracehEb6; pure { r with eb6 := some e }
  | 6 => do let e ← readTracehEb7; pure { r with eb7 := some e }
  | _ => throwM .indexError

/-- for n in range(th_ext): the loop runs indices i, i+1, ... in ascending
order, n iterations remaining. -/
def readEbLoop : Nat → Nat → TraceRec → M TraceRec
  | _, 0, r => pure r
  | i, n + 1, r => do
    let r1 ← readEbStep i r
    readEbLoop (i + 1) n r1

/-- Split a byte list into groups of four (the 32-bit words of the sample
array). -/
def chunks4 : List Nat → List (List Nat)
  | a :: b :: c :: d :: t => [a, b, c, d] :: chunks4 t
  | [] => []
  | l => [l]

/-- SegDParser._read_trace_data: read size * 4 bytes and interpret them as
big-endian 32-bit floats (the source reads little-endian words and
byteswaps).  A byte count that is not a multiple of four makes
array.fromstring raise ValueError.  Samples are kept as bit patterns. -/
def readTraceData (size : Nat) : M (List Nat) := do
  let tmp ← readBytes (size * 4)
  if tmp.length % 4 = 0 then pure ((chunks4 tmp).map Decoder.beVal)
  else throwM .valueError

/-- SegDParser._read_trace_data_block: the 20-byte trace header, then one
32-byte extension block per declared extension in fixed ascending order,
then the sample words. -/
def readTraceDataBlock (size : Nat) : M (TraceRec × List Nat) := do
  let th ← readTraceh
  let r0 : TraceRec := ⟨th, none, none, none, none, none, none, none⟩
  let r ← readEbLoop 0 th.trace_header_extension r0
  let data ← readTraceData size
  pure (r, data)

/-- Exact rational value of a big-endian 32-bit IEEE-754 float pattern;
absent for an all-ones exponent (infinities and NaN, for which the
modulo-one integrality test of numpy is false). -/
def f32Val (bits : Nat) : Option ℚ :=
  let s : ℕ := bits / 2 ^ 31 % 2
  let e : ℕ := bits / 2 ^ 23 % 256
  let m : ℕ := bits % 2 ^ 23
  if e = 255 then none
  else
    let mag : ℚ :=
      if e = 0 then (m : ℚ) / 2 ^ 149
      else (((2 ^ 23 + m : ℕ) : ℚ) * 2 ^ e) / 2 ^ 150
    some (if s = 1 then -mag else mag)

/-- np.mod(x, 1) == 0 on one sample: the float value exists and is a whole
number. -/
def isWholeF32 (bits : Nat) : Bool :=
  match f32Val bits with
  | some q => q.den == 1
  | none => false

/-- One step of the convert_to_int accumulation of read_segd:
convert_to_int = convert_to_int and np.all(np.mod(data, 1) == 0). -/
def intFlagStep (acc : Bool) (d : List Nat) : Bool := acc && d.all isWholeF32

/-- The integer-representability flag of the assembled sample matrix:
the convert_to_int accumulation over all traces, starting from True. -/
def convertToInt (ts : List (List Nat)) : Bool := ts.foldl intFlagStep true

/-- Per-trace outcome of the trace loop of read_segd: merged header record,
sample bit patterns, the scan type entry selected by channel set number,
and the band code stored in the trace stats. -/
structure TraceMeta where
  traceh : TraceRec
  data : List Nat
  schEntry : Sch
  band : Option Char
  deriving DecidableEq, Repr

/-- The trace loop of read_segd (lines 563-575): read one trace block,
fold its samples into the convert_to_int flag, derive the band code from
the sample rate (a zero sample rate makes 1/sample_rate raise
ZeroDivisionError), and select the scan type entry of the channel set
(a missing key raises KeyError). -/
def readTraces (sch : List (Nat × Sch)) (sampleRate : ℚ) (npts : Nat) :
    Nat → Bool → M (List TraceMeta × Bool)
  | 0, flag => pure ([], flag)
  | n + 1, flag => do
    let (th, data) ← readTraceDataBlock npts
    let flag1 := intFlagStep flag data
    let band ←
      if sampleRate = 0 then throwM .zeroDivisionError
      else pure (Decoder.band_code (1 / sampleRate))
    let entry ←
      match dictGet sch th.base.channel_set_number with
      | some s => pure s
      | none => throwM .keyError
    let (rest, fl) ← readTraces sch sampleRate npts n flag1
    pure (⟨th, data, entry, band⟩ :: rest, fl)

/-- Lines 553-555 of read_segd: the external header length from general
header 1, replaced by the external_header_blocks of general header 2 when
it equals 165 (the BCD decode of the 0xFF overflow byte; the absent case
is never replaced, since None == 165 is false in Python). -/
def resolveExtHdrLen (g1 : GenHdr1) (g2 : GenHdr2) : Option Nat :=
  match g1.external_header_length with
  | some v => if v = 165 then some g2.external_header_blocks else some v
  | none => none

/-- Everything read_segd has produced by the time it closes the stream
(line 576): headers, scan type table, traces and the convert_to_int flag. -/
structure Pre where
  generalh1 : GenHdr1
  generalh2 : GenHdr2
  generalh3 : GenHdr3
  sch : List (Nat × Sch)
  extdh : Extdh
  extrh : Option (List Nat)
  traces : List TraceMeta
  convert_to_int : Bool
  deriving DecidableEq, Repr

/-- read_segd up to the stream close: general headers 1-3, the scan type
loop, extended header (extended_header_length * 32 bytes), external header
(resolved length * 32 bytes; an absent length raises TypeError on the
multiplication with None), then the trace loop. -/
def readSegdCore : M Pre := do
  let g1 ← readGeneralHdr1
  let g2 ← readGeneralHdr2
  let g3 ← readGeneralHdr3
  let sch ← readSchLoop g1.n_channel_sets_per_record []
  let extdh ← readExtendedHeader (g1.extended_header_length * 32)
  let ehl ←
    match resolveExtHdrLen g1 g2 with
    | some v => pure v
    | none => throwM .typeError
  let extrh ← readExternalHeader (ehl * 32)
  let sampleRate : ℚ := (extdh.sample_rate_in_us : ℚ) / 1000000
  let npts := extdh.number_of_samples_in_trace
  let (traces, flag) ← readTraces sch sampleRate npts extdh.total_number_of_traces true
  pure ⟨g1, g2, g3, sch, extdh, extrh, traces, flag⟩

/-- Result of a completed read_segd, with the assembled sample matrix. -/
structure Final where
  pre : Pre
  traces_data : List (List Nat)
  deriving DecidableEq, Repr

/-- The whole of read_segd, with the state of the stream on exit.  The
boolean records whether self._byte_stream.close() (line 576) ran before
control left the function: the source closes the stream only after the
trace loop, so an exception in any block decode propagates with the flag
still false, while the matrix assembly after the close (a row of the wrong
length raises ValueError on the numpy assignment) fails with the stream
already closed. -/
def readSegd (data : List Nat) : Except Err Final × Bool × St :=
  match readSegdCore ⟨data, 0⟩ with
  | (.ok p, s) =>
    if p.traces.all (fun t => decide (t.data.length = p.extdh.number_of_samples_in_trace))
    then (.ok ⟨p, p.traces.map (fun t => t.data)⟩, true, s)
    else (.error .valueError, true, s)
  | (.error e, s) => (.error e, false, s)

/-- The nibble sequence of a byte list, two nibbles per byte, high first. -/
def nibbles (bs : List Nat) : List Nat := bs.flatMap (fun b => [b / 16, b % 16])

/-- The integer whose base-10 digits are the given list, in order. -/
def digitsVal (ds : List Nat) : Nat := ds.foldl (fun a d => a * 10 + d) 0

/-- The scan type table produced from a list of 32-byte blocks: blocks the
decoder rejects are skipped, decoded blocks are inserted keyed by channel
set number. -/
def schTableFold : List (List Nat) → List (Nat × Sch) → List (Nat × Sch)
  | [], t => t
  | b :: r, t =>
    match decodeSch b with
    | .ok s => schTableFold r (dictInsert t s.channel_set_number s)
    | .error _ => schTableFold r t

/-- Channel set numbers of the blocks that are not all zero, in order. -/
def nonzeroKeys (bufs : List (List Nat)) : List Nat :=
  (bufs.filter (fun b => decide (b.sum ≠ 0))).map (fun b => Decoder.bcdNat (slice b 1 2))

/-- The keys of the scan type table, in insertion order. -/
def tableKeys (t : List (Nat × Sch)) : List Nat := t.map (fun p => p.1)

/-!
Theorems.  First the unfolding lemmas for the stream monad, then the facts
about the primitive decoders, then the claim theorems.
-/

theorem M.run_bind (x : M α) (f : α → M β) (s : St) :
    (x >>= f) s = match x s with
      | (.ok a, s1) => f a s1
      | (.error e, s1) => (.error e, s1) := rfl

theorem M.run_bind_ok {x : M α} {f : α → M β} {s s1 : St} {a : α}
    (h : x s = (.ok a, s1)) : (x >>= f) s = f a s1 := by
  rw [M.run_bind, h]

theorem M.run_bind_error {x : M α} {f : α → M β} {s s1 : St} {e : Err}
    (h : x s = (.error e, s1)) : (x >>= f) s = (.error e, s1) := by
  rw [M.run_bind, h]

theorem M.run_pure (a : α) (s : St) : (pure a : M α) s = (.ok a, s) := rfl

theorem M.run_liftE (x : Except Err α) (s : St) : liftE x s = (x, s) := rfl

theorem M.run_throw (e : Err) (s : St) : (throwM e : M α) s = (.error e, s) := rfl

theorem M.run_readBytes (n : Nat) (s : St) :
    readBytes n s = (.ok ((s.data.drop s.pos).take n),
      ⟨s.data, s.pos + ((s.data.drop s.pos).take n).length⟩) := rfl

namespace Decoder

theorem decodeBcdGo_ok {bs : List Nat} (h : ∀ b ∈ bs, b < 256) (n : Nat) :
    decodeBcdGo bs n = .ok (bcdGoNat bs n) := by
  induction bs generalizing n with
  | nil => rfl
  | cons b t ih =>
    have hb : ¬ 255 < b := by
      have := h b (by simp)
      omega
    have ht : ∀ x ∈ t, x < 256 := fun x hx => h x (by simp [hx])
    simp only [decodeBcdGo, bcd, if_neg hb, ih ht]
    rfl

theorem decode_bcd_ok {bs : List Nat} (h : ∀ b ∈ bs, b < 256) :
    decode_bcd bs = .ok (bcdNat bs) :=
  decodeBcdGo_ok h _

theorem length_nibbles (bs : List Nat) : (nibbles bs).length = 2 * bs.length := by
  induction bs with
  | nil => rfl
  | cons b t ih => simp [nibbles, List.flatMap] at ih ⊢; omega

theorem digitsVal_foldl (ds : List Nat) (a : Nat) :
    ds.foldl (fun a d => a * 10 + d) a = a * 10 ^ ds.length + digitsVal ds := by
  induction ds generalizing a with
  | nil => simp [digitsVal]
  | cons d t ih =>
    simp only [digitsVal, List.foldl_cons, List.length_cons]
    rw [ih (a * 10 + d), ih (0 * 10 + d)]
    ring

theorem bcdNat_eq_digitsVal (bs : List Nat) : bcdNat bs = digitsVal (nibbles bs) := by
  induction bs with
  | nil => rfl
  | cons b t ih =>
    have hn : nibbles (b :: t) = b / 16 :: b % 16 :: nibbles t := by
      simp [nibbles]
    have hlen : (b :: t).length * 2 - 1 = 2 * t.length + 1 := by
      simp; omega
    have hstep : bcdNat (b :: t)
        = b / 16 * 10 ^ (2 * t.length + 1) + b % 16 * 10 ^ (2 * t.length) + bcdNat t := by
      show bcdGoNat (b :: t) ((b :: t).length * 2 - 1) = _
      rw [hlen]
      show b / 16 * 10 ^ (2 * t.length + 1) + b % 16 * 10 ^ (2 * t.length + 1 - 1)
          + bcdGoNat t (2 * t.length + 1 - 2) = _
      have h1 : 2 * t.length + 1 - 1 = 2 * t.length := by omega
      have h2 : 2 * t.length + 1 - 2 = t.length * 2 - 1 := by omega
      rw [h1, h2]
      rfl
    rw [hstep, ih, hn]
    have hd : digitsVal (b / 16 :: b % 16 :: nibbles t)
        = ((0 * 10 + b / 16) * 10 + b % 16) * 10 ^ (nibbles t).length + digitsVal (nibbles t) := by
      unfold digitsVal
      simp only [List.foldl_cons]
      exact digitsVal_foldl (nibbles t) _
    rw [hd, length_nibbles]
    ring

end Decoder

/-- Claim C6, counterexample: the byte 0xAB = 171 has nibbles 10 and 11,
both at least 10, yet decode_bcd returns the value 111 instead of failing
with a malformed-BCD error. -/
theorem c6_cex_nibble_above_nine_returns_value :
    Decoder.decode_bcd [171] = .ok 111 := rfl

/-- Claim C6 (amended): on byte input decode_bcd never signals malformed
BCD; it returns the integer whose base-10 digit expansion is the nibble
sequence of the input (a nibble of value 10 or more is folded in with the
same weight, so 0xAB gives 111).  In particular, when every nibble is
between 0 and 9 the result is the non-negative integer whose decimal
digits are those nibbles in order, which is the true half of the claim. -/
theorem c6_amended_decode_bcd_digits (bs : List Nat) (h : ∀ b ∈ bs, b < 256) :
    Decoder.decode_bcd bs = .ok (digitsVal (nibbles bs)) := by
  rw [Decoder.decode_bcd_ok h, Decoder.bcdNat_eq_digitsVal]

/-- Witness for C6 at the concrete input 0x12 0x34. -/
theorem c6_witness :
    Decoder.decode_bcd [18, 52] = .ok (digitsVal (nibbles [18, 52])) :=
  c6_amended_decode_bcd_digits [18, 52] (by decide)

/-- Claim C7, counterexample: decode_bin applied to the empty byte
sequence returns the value 0 (zero padding to four bytes) instead of
failing with a length error. -/
theorem c7_cex_decode_bin_empty_returns_zero :
    Decoder.decode_bin [] = .ok 0 := rfl

/-- Claim C7 (amended): the fixed-width decoders decode_bin and decode_flt
do fail when given more than 4 bytes (struct.error on the unpadded
buffer), and decode_dbl rejects anything but exactly 8 bytes, including
the empty input; but zero bytes do not make decode_bin fail: it returns 0,
and decode_fraction likewise accepts the empty input and returns 0. -/
theorem c7_amended_length_behavior (bs : List Nat) :
    (4 < bs.length → Decoder.decode_bin bs = .error .structError) ∧
    Decoder.decode_bin [] = .ok 0 ∧
    Decoder.decode_fraction [] = 0 ∧
    Decoder.decode_dbl [] = .error .structError ∧
    (4 < bs.length → Decoder.decode_flt bs = .error .structError) := by
  refine ⟨fun h => ?_, rfl, rfl, rfl, fun h => ?_⟩
  · simp [Decoder.decode_bin, h]
  · simp [Decoder.decode_flt, h]

/-- Witness for C7 at a concrete 5-byte input. -/
theorem c7_witness :
    (4 < ([1, 2, 3, 4, 5] : List Nat).length →
      Decoder.decode_bin [1, 2, 3, 4, 5] = .error .structError) ∧
    Decoder.decode_bin [] = .ok 0 ∧
    Decoder.decode_fraction [] = 0 ∧
    Decoder.decode_dbl [] = .error .structError ∧
    (4 < ([1, 2, 3, 4, 5] : List Nat).length →
      Decoder.decode_flt [1, 2, 3, 4, 5] = .error .structError) :=
  c7_amended_length_behavior [1, 2, 3, 4, 5]

namespace Decoder

theorem beVal_cons (b : Nat) (t : List Nat) :
    beVal (b :: t) = b * 256 ^ t.length + beVal t := rfl

theorem beVal_lt {bs : List Nat} (h : ∀ b ∈ bs, b < 256) :
    beVal bs < 256 ^ bs.length := by
  induction bs with
  | nil => simp [beVal]
  | cons b t ih =>
    have hb : b < 256 := h b (by simp)
    have ht := ih (fun x hx => h x (by simp [hx]))
    calc beVal (b :: t) = b * 256 ^ t.length + beVal t := rfl
      _ < b * 256 ^ t.length + 256 ^ t.length := by omega
      _ = (b + 1) * 256 ^ t.length := by ring
      _ ≤ 256 * 256 ^ t.length := Nat.mul_le_mul_right _ (by omega)
      _ = 256 ^ (t.length + 1) := by ring
      _ = 256 ^ (b :: t).length := by rw [List.length_cons]

theorem two_zpow_sub (u v : ℕ) : (2 : ℚ) ^ ((u : ℤ) - (v : ℤ)) = 2 ^ u / 2 ^ v := by
  rw [zpow_sub₀ (by norm_num : (2 : ℚ) ≠ 0), zpow_natCast, zpow_natCast]

theorem two_zpow_neg_nat (n : ℕ) : (2 : ℚ) ^ (-(n : ℤ)) = 1 / 2 ^ n := by
  rw [zpow_neg, zpow_natCast, one_div]

theorem int_sub_add_one (z : ℤ) : z - 1 + 1 = z := by ring

theorem two_zpow_mono {m n : ℤ} (h : m ≤ n) : (2 : ℚ) ^ m ≤ 2 ^ n := by
  have hsplit : (2 : ℚ) ^ n = 2 ^ m * 2 ^ (n - m) := by
    rw [← zpow_add₀ (by norm_num : (2 : ℚ) ≠ 0)]
    rw [show m + (n - m) = n from by omega]
  have hpos : (0 : ℚ) < 2 ^ m := zpow_pos (by norm_num) m
  have h1 : (1 : ℚ) ≤ 2 ^ (n - m) := by
    obtain ⟨t, ht⟩ : ∃ t : ℕ, (t : ℤ) = n - m := ⟨(n - m).toNat, Int.toNat_of_nonneg (by omega)⟩
    rw [← ht, zpow_natCast]
    calc (1 : ℚ) = 1 ^ t := (one_pow t).symm
      _ ≤ 2 ^ t := by
        apply pow_le_pow_left₀ (by norm_num) (by norm_num)
  calc (2 : ℚ) ^ m = 2 ^ m * 1 := by ring
    _ ≤ 2 ^ m * 2 ^ (n - m) := mul_le_mul_of_nonneg_left h1 hpos.le
    _ = 2 ^ n := hsplit.symm

theorem qlog2_def (q : ℚ) :
    qlog2 q = if (2 : ℚ) ^ ((Nat.log2 q.num.toNat : ℤ) - (Nat.log2 q.den : ℤ)) ≤ q
      then (Nat.log2 q.num.toNat : ℤ) - (Nat.log2 q.den : ℤ)
      else (Nat.log2 q.num.toNat : ℤ) - (Nat.log2 q.den : ℤ) - 1 := rfl

/-- qlog2 satisfies the floor-log characterisation on positive rationals. -/
theorem qlog2_spec {q : ℚ} (hq : 0 < q) :
    (2 : ℚ) ^ qlog2 q ≤ q ∧ q < 2 ^ (qlog2 q + 1) := by
  have hnum : 0 < q.num := Rat.num_pos.mpr hq
  have hd : 0 < q.den := q.den_pos
  have hZ : ((q.num.toNat : ℤ)) = q.num := Int.toNat_of_nonneg hnum.le
  have hcast : ((q.num.toNat : ℕ) : ℚ) = (q.num : ℚ) := by exact_mod_cast hZ
  have hqeq : q = (q.num.toNat : ℚ) / (q.den : ℚ) := by
    rw [hcast]; exact (Rat.num_div_den q).symm
  have hdq : (0 : ℚ) < (q.den : ℚ) := by exact_mod_cast hd
  have hLa1 : q.num.toNat < 2 ^ (Nat.log2 q.num.toNat + 1) := Nat.lt_log2_self
  have hLa2 : 2 ^ Nat.log2 q.num.toNat ≤ q.num.toNat := Nat.log2_self_le (by omega)
  have hLd1 : q.den < 2 ^ (Nat.log2 q.den + 1) := Nat.lt_log2_self
  have hLd2 : 2 ^ Nat.log2 q.den ≤ q.den := Nat.log2_self_le (by omega)
  have hU : q < 2 ^ (((Nat.log2 q.num.toNat : ℤ) - (Nat.log2 q.den : ℤ)) + 1) := by
    rw [show ((Nat.log2 q.num.toNat : ℤ) - (Nat.log2 q.den : ℤ)) + 1
        = ((Nat.log2 q.num.toNat + 1 : ℕ) : ℤ) - ((Nat.log2 q.den : ℕ) : ℤ) from by
      push_cast; ring]
    rw [two_zpow_sub]
    conv_lhs => rw [hqeq]
    rw [div_lt_div_iff₀ hdq (by positivity)]
    have hN : q.num.toNat * 2 ^ Nat.log2 q.den < 2 ^ (Nat.log2 q.num.toNat + 1) * q.den := by
      calc q.num.toNat * 2 ^ Nat.log2 q.den
          < 2 ^ (Nat.log2 q.num.toNat + 1) * 2 ^ Nat.log2 q.den :=
            mul_lt_mul_of_pos_right hLa1 (Nat.two_pow_pos _)
        _ ≤ 2 ^ (Nat.log2 q.num.toNat + 1) * q.den :=
            mul_le_mul_of_nonneg_left hLd2 (Nat.zero_le _)
    exact_mod_cast hN
  have hL : (2 : ℚ) ^ (((Nat.log2 q.num.toNat : ℤ) - (Nat.log2 q.den : ℤ)) - 1) < q := by
    rw [show ((Nat.log2 q.num.toNat : ℤ) - (Nat.log2 q.den : ℤ)) - 1
        = ((Nat.log2 q.num.toNat : ℕ) : ℤ) - ((Nat.log2 q.den + 1 : ℕ) : ℤ) from by
      push_cast; ring]
    rw [two_zpow_sub]
    conv_rhs => rw [hqeq]
    rw [div_lt_div_iff₀ (by positivity) hdq]
    have hN : 2 ^ Nat.log2 q.num.toNat * q.den < q.num.toNat * 2 ^ (Nat.log2 q.den + 1) := by
      calc 2 ^ Nat.log2 q.num.toNat * q.den
          < 2 ^ Nat.log2 q.num.toNat * 2 ^ (Nat.log2 q.den + 1) :=
            mul_lt_mul_of_pos_left hLd1 (Nat.two_pow_pos _)
        _ ≤ q.num.toNat * 2 ^ (Nat.log2 q.den + 1) :=
            mul_le_mul_of_nonneg_right hLa2 (Nat.zero_le _)
    exact_mod_cast hN
  rw [qlog2_def]
  split_ifs with hc
  · exact ⟨hc, hU⟩
  · exact ⟨hL.le, by rw [int_sub_add_one]; exact not_le.mp hc⟩

/-- The floor-log characterisation determines qlog2 uniquely. -/
theorem qlog2_eq_of {q : ℚ} (hq : 0 < q) {E : ℤ} (h1 : (2 : ℚ) ^ E ≤ q)
    (h2 : q < 2 ^ (E + 1)) : qlog2 q = E := by
  obtain ⟨hl, hr⟩ := qlog2_spec hq
  by_contra hne
  rcases lt_or_gt_of_ne hne with hlt | hgt
  · have := two_zpow_mono (show qlog2 q + 1 ≤ E from by omega)
    linarith
  · have := two_zpow_mono (show E + 1 ≤ qlog2 q from by omega)
    linarith

/-- A value already on the grid is left unchanged by the rounding. -/
theorem roundToGrid_exact (n : ℤ) {g : ℚ} (hg : 0 < g) :
    roundToGrid ((n : ℚ) * g) g = (n : ℚ) * g := by
  have hx : ((n : ℚ) * g) / g = (n : ℚ) := by
    field_simp
  simp only [roundToGrid, hx, Int.floor_intCast, sub_self, zero_mul]
  rw [if_pos hg]

theorem roundDouble_pos_eq {q : ℚ} (hq : 0 < q) : roundDouble q = roundPos q := by
  rw [roundDouble, if_neg hq.ne', if_neg (not_lt.mpr hq.le)]

theorem roundPos_normal {q : ℚ} {E : ℤ} (he : qlog2 q = E) (hE : -1022 < E) :
    roundPos q = roundToGrid q (2 ^ (E - 52)) := by
  simp only [roundPos, he]
  rw [if_neg (not_le.mpr hE)]

/-- A dyadic rational with numerator below 2 ^ 53 is a binary64 double, so
rounding fixes it. -/
theorem roundDouble_dyadic (m k : ℕ) (hm : 0 < m) (h53 : m < 2 ^ 53) (hk : k ≤ 1021) :
    roundDouble ((m : ℚ) / 2 ^ k) = (m : ℚ) / 2 ^ k := by
  have hm1 : (1 : ℚ) ≤ (m : ℚ) := by exact_mod_cast hm
  have hq : (0 : ℚ) < (m : ℚ) / 2 ^ k := by positivity
  obtain ⟨h1, h2⟩ := qlog2_spec hq
  have hq_lower : (2 : ℚ) ^ (-(k : ℤ)) ≤ (m : ℚ) / 2 ^ k := by
    rw [two_zpow_neg_nat]
    exact (div_le_div_iff_of_pos_right (by positivity)).mpr hm1
  have hupper : (m : ℚ) / 2 ^ k < 2 ^ (((53 : ℕ) : ℤ) - (k : ℤ)) := by
    rw [two_zpow_sub]
    exact (div_lt_div_iff_of_pos_right (by positivity)).mpr (by exact_mod_cast h53)
  have hEk : -(k : ℤ) ≤ qlog2 ((m : ℚ) / 2 ^ k) := by
    by_contra hcon
    push_neg at hcon
    have := two_zpow_mono (show qlog2 ((m : ℚ) / 2 ^ k) + 1 ≤ -(k : ℤ) from by omega)
    linarith
  have hE53 : qlog2 ((m : ℚ) / 2 ^ k) < ((53 : ℕ) : ℤ) - (k : ℤ) := by
    by_contra hcon
    push_neg at hcon
    have := two_zpow_mono hcon
    linarith
  set E := qlog2 ((m : ℚ) / 2 ^ k) with hE
  have hEnormal : -1022 < E := by omega
  rw [roundDouble_pos_eq hq, roundPos_normal hE.symm hEnormal]
  have ht : (0 : ℤ) ≤ 52 - E - k := by omega
  obtain ⟨t, htd⟩ : ∃ t : ℕ, (t : ℤ) = 52 - E - k := ⟨_, Int.toNat_of_nonneg ht⟩
  have hzz : (2 : ℚ) ^ (t : ℕ) * (2 : ℚ) ^ (E - 52) = 1 / 2 ^ (k : ℕ) := by
    rw [← zpow_natCast (2 : ℚ) t, ← zpow_add₀ (by norm_num : (2 : ℚ) ≠ 0)]
    rw [show (t : ℤ) + (E - 52) = -(k : ℤ) from by omega]
    exact two_zpow_neg_nat k
  have hng : (m : ℚ) / 2 ^ k = ((m * 2 ^ t : ℤ) : ℚ) * 2 ^ (E - 52) := by
    push_cast
    calc (m : ℚ) / 2 ^ k = (m : ℚ) * (1 / 2 ^ k) := by ring
      _ = (m : ℚ) * ((2 : ℚ) ^ (t : ℕ) * 2 ^ (E - 52)) := by rw [hzz]
      _ = (m : ℚ) * 2 ^ (t : ℕ) * 2 ^ (E - 52) := by ring
  rw [hng, roundToGrid_exact _ (zpow_pos (by norm_num) _)]

theorem roundDouble_two_pow_inv (n : ℕ) (hn : n ≤ 1021) :
    roundDouble (1 / 2 ^ n : ℚ) = 1 / 2 ^ n := by
  have h := roundDouble_dyadic 1 n (by norm_num) (by norm_num) hn
  simpa using h

theorem roundDouble_one : roundDouble (1 : ℚ) = 1 := by
  have h := roundDouble_dyadic 1 0 (by norm_num) (by norm_num) (by norm_num)
  simpa using h

/-- Rounding absorbs an addend smaller than half an ulp of 1. -/
theorem roundDouble_one_add (e : ℚ) (h0 : 0 < e) (h1 : e * 2 ^ 53 < 1) :
    roundDouble (1 + e) = 1 := by
  have hq : (0 : ℚ) < 1 + e := by linarith
  have he1 : e < 1 := by nlinarith
  have he : qlog2 (1 + e) = 0 := by
    apply qlog2_eq_of hq
    · rw [zpow_zero]; linarith
    · rw [zero_add, zpow_one]; linarith
  rw [roundDouble_pos_eq hq, roundPos_normal he (by norm_num)]
  rw [show ((0 : ℤ) - 52) = -((52 : ℕ) : ℤ) from by norm_num, two_zpow_neg_nat]
  have hx : (1 + e) / (1 / 2 ^ 52 : ℚ) = 2 ^ 52 + e * 2 ^ 52 := by
    field_simp
    ring
  have hes : e * 2 ^ 52 < 1 / 2 := by
    have hh : e * 2 ^ 52 * 2 = e * 2 ^ 53 := by ring
    linarith [h1, hh]
  have hepos : 0 < e * 2 ^ 52 := by positivity
  have hfl : ⌊(2 ^ 52 + e * 2 ^ 52 : ℚ)⌋ = 2 ^ 52 := by
    rw [Int.floor_eq_iff]
    constructor
    · push_cast; linarith
    · push_cast; linarith
  simp only [roundToGrid, hx, hfl]
  have hr : (1 + e : ℚ) - ((2 ^ 52 : ℤ) : ℚ) * (1 / 2 ^ 52) = e := by
    push_cast
    norm_num
  rw [hr]
  have hcond : e * 2 < 1 / 2 ^ 52 := by
    rw [lt_div_iff₀ (by norm_num : (0 : ℚ) < 2 ^ 52)]
    calc e * 2 * 2 ^ 52 = e * 2 ^ 53 := by ring
      _ < 1 := h1
  rw [if_pos hcond]
  push_cast
  norm_num

/-- The exact sum (2 ^ 54 - 1) / 2 ^ 54 is a tie between the doubles
(2 ^ 53 - 1) / 2 ^ 53 and 1; ties-to-even picks 1. -/
theorem roundDouble_tie54 : roundDouble ((2 ^ 54 - 1 : ℚ) / 2 ^ 54) = 1 := by
  have hq : (0 : ℚ) < (2 ^ 54 - 1) / 2 ^ 54 := by norm_num
  have he : qlog2 ((2 ^ 54 - 1 : ℚ) / 2 ^ 54) = -1 := by
    apply qlog2_eq_of hq
    · rw [show (-1 : ℤ) = -((1 : ℕ) : ℤ) from by norm_num, two_zpow_neg_nat]
      rw [div_le_div_iff₀ (by norm_num) (by norm_num)]
      norm_num
    · rw [show ((-1 : ℤ) + 1) = ((0 : ℕ) : ℤ) from by norm_num, zpow_natCast]
      rw [div_lt_iff₀ (by norm_num)]
      norm_num
  rw [roundDouble_pos_eq hq, roundPos_normal he (by norm_num)]
  rw [show ((-1 : ℤ) - 52) = -((53 : ℕ) : ℤ) from by norm_num, two_zpow_neg_nat]
  have hx : ((2 ^ 54 - 1 : ℚ) / 2 ^ 54) / (1 / 2 ^ 53) = (2 ^ 54 - 1) / 2 := by
    field_simp
    ring
  have hfl : ⌊((2 ^ 54 - 1 : ℚ)) / 2⌋ = 2 ^ 53 - 1 := by
    rw [Int.floor_eq_iff]
    constructor
    · push_cast; norm_num
    · push_cast; norm_num
  simp only [roundToGrid, hx, hfl]
  have hr : (2 ^ 54 - 1 : ℚ) / 2 ^ 54 - ((2 ^ 53 - 1 : ℤ) : ℚ) * (1 / 2 ^ 53) = 1 / 2 ^ 54 := by
    push_cast
    field_simp
    ring
  rw [hr]
  rw [if_neg (by norm_num : ¬ ((1 : ℚ) / 2 ^ 54 * 2 < 1 / 2 ^ 53))]
  rw [if_neg (by norm_num : ¬ ((1 : ℚ) / 2 ^ 53 < 1 / 2 ^ 54 * 2))]
  have hodd : ¬ ((2 ^ 53 - 1 : ℤ) % 2 = 0) := by
    rw [show (2 : ℤ) ^ 53 - 1 = 1 + 2 * (2 ^ 52 - 1) from by ring]
    omega
  rw [if_neg hodd]
  push_cast
  field_simp
  norm_num

theorem foldl_replicate_one (n A : ℕ) :
    (List.replicate n 1).foldl (fun a bit => a * 2 + bit) A + 1 = (A + 1) * 2 ^ n := by
  induction n generalizing A with
  | zero => simp
  | succ m ih =>
    rw [List.replicate_succ, List.foldl_cons, ih (A * 2 + 1), pow_succ]
    ring

/-- The float sum over a bit suffix starting at weight 2 ^ -(k + 1) stays
exact while the running numerator fits in 53 bits: every term and every
partial sum is a representable dyadic, so no rounding step moves it. -/
theorem floatSum_go (bits : List Nat) (k A : ℕ) (hbits : ∀ b ∈ bits, b ≤ 1)
    (hA : A < 2 ^ k) (hlen : k + bits.length ≤ 53) :
    ((bits.enumFrom k).map (fun p => (p.2 : ℚ) * roundDouble (1 / 2 ^ (p.1 + 1)))).foldl
        (fun acc t => roundDouble (acc + t)) ((A : ℚ) / 2 ^ k)
      = ((bits.foldl (fun a bit => a * 2 + bit) A : ℕ) : ℚ) / 2 ^ (k + bits.length) := by
  induction bits generalizing k A with
  | nil => simp
  | cons b t ih =>
    have hb : b ≤ 1 := hbits b (by simp)
    have ht : ∀ x ∈ t, x ≤ 1 := fun x hx => hbits x (by simp [hx])
    have hk53 : k + 1 ≤ 53 := by
      have := hlen
      simp [List.length_cons] at this
      omega
    have hterm : roundDouble (1 / 2 ^ (k + 1) : ℚ) = 1 / 2 ^ (k + 1) :=
      roundDouble_two_pow_inv (k + 1) (by omega)
    have hsum : (A : ℚ) / 2 ^ k + (b : ℚ) * (1 / 2 ^ (k + 1))
        = ((A * 2 + b : ℕ) : ℚ) / 2 ^ (k + 1) := by
      push_cast
      rw [pow_succ]
      field_simp
      ring
    have hA' : A * 2 + b < 2 ^ (k + 1) := by
      have h2 : 2 ^ (k + 1) = 2 * 2 ^ k := by rw [pow_succ]; ring
      omega
    have hstep : roundDouble (((A * 2 + b : ℕ) : ℚ) / 2 ^ (k + 1))
        = ((A * 2 + b : ℕ) : ℚ) / 2 ^ (k + 1) := by
      rcases Nat.eq_zero_or_pos (A * 2 + b) with hz | hpos
      · rw [hz]
        simp [roundDouble]
      · refine roundDouble_dyadic _ _ hpos ?_ (by omega)
        calc A * 2 + b < 2 ^ (k + 1) := hA'
          _ ≤ 2 ^ 53 := Nat.pow_le_pow_right (by norm_num) (by omega)
    simp only [List.enumFrom, List.map_cons, List.foldl_cons]
    rw [hterm, hsum, hstep]
    rw [ih (k + 1) (A * 2 + b) ht hA' (by simp at hlen ⊢; omega)]
    simp only [List.foldl_cons, List.length_cons]
    rw [show k + 1 + t.length = k + (t.length + 1) from by omega]

theorem fracTerms_eq (bits : List Nat) :
    fracTerms bits = (bits.enumFrom 0).map
      (fun p => (p.2 : ℚ) * roundDouble (1 / 2 ^ (p.1 + 1))) := rfl

theorem byteBits_le_one (b : Nat) : ∀ x ∈ byteBits b, x ≤ 1 := by
  intro x hx
  simp only [byteBits, List.mem_cons, List.not_mem_nil, or_false] at hx
  rcases hx with rfl | rfl | rfl | rfl | rfl | rfl | rfl | rfl <;> omega

theorem length_flatMap_byteBits (bs : List Nat) :
    (bs.flatMap byteBits).length = 8 * bs.length := by
  induction bs with
  | nil => rfl
  | cons b t ih =>
    rw [List.flatMap_cons, List.length_append, ih, List.length_cons]
    simp [byteBits]
    ring

theorem foldl_byteBits (b A : ℕ) (hb : b < 256) :
    (byteBits b).foldl (fun a bit => a * 2 + bit) A = A * 256 + b := by
  simp only [byteBits, List.foldl_cons, List.foldl_nil]
  omega

theorem foldl_flatMap_byteBits (bs : List Nat) (A : ℕ) (h : ∀ b ∈ bs, b < 256) :
    (bs.flatMap byteBits).foldl (fun a bit => a * 2 + bit) A
      = A * 256 ^ bs.length + beVal bs := by
  induction bs generalizing A with
  | nil => simp [beVal]
  | cons b t ih =>
    have hb : b < 256 := h b (by simp)
    have ht : ∀ x ∈ t, x < 256 := fun x hx => h x (by simp [hx])
    rw [List.flatMap_cons, List.foldl_append, foldl_byteBits b A hb, ih (A * 256 + b) ht]
    rw [beVal_cons, List.length_cons, pow_succ]
    ring

/-- For up to six bytes (48 bits) the whole float summation is exact, so
decode_fraction agrees with the ideal value beVal bs / 256 ^ length. -/
theorem decode_fraction_exact {bs : List Nat} (h : ∀ b ∈ bs, b < 256)
    (hlen : bs.length ≤ 6) :
    decode_fraction bs = (beVal bs : ℚ) / 256 ^ bs.length := by
  have hbits : ∀ x ∈ bs.flatMap byteBits, x ≤ 1 := by
    intro x hx
    rw [List.mem_flatMap] at hx
    obtain ⟨b, hbmem, hxb⟩ := hx
    exact byteBits_le_one b x hxb
  have hlenb : (bs.flatMap byteBits).length = 8 * bs.length := length_flatMap_byteBits bs
  have h0 : (0 : ℚ) = ((0 : ℕ) : ℚ) / 2 ^ (0 : ℕ) := by norm_num
  rw [decode_fraction, fracTerms_eq, floatSum, h0]
  rw [floatSum_go (bs.flatMap byteBits) 0 0 hbits (by norm_num) (by omega)]
  rw [show (bs.flatMap byteBits).foldl (fun a bit => a * 2 + bit) 0
      = 0 * 256 ^ bs.length + beVal bs from foldl_flatMap_byteBits bs 0 h]
  rw [hlenb]
  rw [show (0 : ℕ) + 8 * bs.length = 8 * bs.length from by omega]
  rw [show (2 : ℚ) ^ (8 * bs.length) = 256 ^ bs.length from by
    rw [pow_mul]; norm_num]
  norm_num

/-- The float sum of the first 53 one-bits is still exact. -/
theorem floatSum_ones53 :
    (((List.replicate 53 (1 : ℕ)).enumFrom 0).map
        (fun p => (p.2 : ℚ) * roundDouble (1 / 2 ^ (p.1 + 1)))).foldl
        (fun acc t => roundDouble (acc + t)) 0 = (2 ^ 53 - 1 : ℚ) / 2 ^ 53 := by
  have h0 : (0 : ℚ) = ((0 : ℕ) : ℚ) / 2 ^ (0 : ℕ) := by norm_num
  rw [h0, floatSum_go (List.replicate 53 1) 0 0
    (fun x hx => by rw [List.eq_of_mem_replicate hx])
    (by norm_num) (by simp)]
  have hval : (List.replicate 53 1).foldl (fun a bit => a * 2 + bit) 0 = 2 ^ 53 - 1 := by
    decide
  rw [hval]
  rw [show ((2 ^ 53 - 1 : ℕ) : ℚ) = (2 : ℚ) ^ 53 - 1 from by
    rw [Nat.cast_sub (by norm_num : (1 : ℕ) ≤ 2 ^ 53)]; push_cast; ring]
  norm_num [List.length_replicate]

/-- Seven 0xFF bytes: after 53 exact steps the tie at the 54th term rounds
up to exactly 1, and the last two terms are absorbed. -/
theorem decode_fraction_ff7 : decode_fraction (List.replicate 7 255) = 1 := by
  have hb : (List.replicate 7 255).flatMap byteBits = List.replicate 53 1 ++ [1, 1, 1] := by
    decide
  rw [decode_fraction, hb, fracTerms_eq, floatSum]
  rw [List.enumFrom_append, List.map_append, List.foldl_append]
  rw [floatSum_ones53]
  have hTB : List.enumFrom (0 + (List.replicate 53 1).length) [1, 1, 1]
      = [(53, 1), (54, 1), (55, 1)] := by decide
  rw [hTB]
  rw [List.map_cons, List.map_cons, List.map_cons, List.map_nil]
  rw [List.foldl_cons, List.foldl_cons, List.foldl_cons, List.foldl_nil]
  dsimp only
  rw [Nat.cast_one, one_mul, one_mul, one_mul]
  rw [show (1 : ℚ) / 2 ^ (53 + 1) = 1 / 2 ^ 54 from by norm_num]
  rw [show (1 : ℚ) / 2 ^ (54 + 1) = 1 / 2 ^ 55 from by norm_num]
  rw [show (1 : ℚ) / 2 ^ (55 + 1) = 1 / 2 ^ 56 from by norm_num]
  rw [roundDouble_two_pow_inv 54 (by norm_num), roundDouble_two_pow_inv 55 (by norm_num),
    roundDouble_two_pow_inv 56 (by norm_num)]
  rw [show (2 ^ 53 - 1 : ℚ) / 2 ^ 53 + 1 / 2 ^ 54 = (2 ^ 54 - 1) / 2 ^ 54 from by norm_num]
  rw [roundDouble_tie54]
  rw [roundDouble_one_add (1 / 2 ^ 55) (by norm_num) (by norm_num)]
  rw [roundDouble_one_add (1 / 2 ^ 56) (by norm_num) (by norm_num)]

/-- Six 0xFF bytes then 0xFE: a different bit pattern that also reaches
exactly 1 after the tie at the 54th term. -/
theorem decode_fraction_fffe :
    decode_fraction [255, 255, 255, 255, 255, 255, 254] = 1 := by
  have hb : ([255, 255, 255, 255, 255, 255, 254] : List Nat).flatMap byteBits
      = List.replicate 53 1 ++ [1, 1, 0] := by decide
  rw [decode_fraction, hb, fracTerms_eq, floatSum]
  rw [List.enumFrom_append, List.map_append, List.foldl_append]
  rw [floatSum_ones53]
  have hTB : List.enumFrom (0 + (List.replicate 53 1).length) [1, 1, 0]
      = [(53, 1), (54, 1), (55, 0)] := by decide
  rw [hTB]
  rw [List.map_cons, List.map_cons, List.map_cons, List.map_nil]
  rw [List.foldl_cons, List.foldl_cons, List.foldl_cons, List.foldl_nil]
  dsimp only
  rw [Nat.cast_one, Nat.cast_zero, one_mul, one_mul, zero_mul, add_zero]
  rw [show (1 : ℚ) / 2 ^ (53 + 1) = 1 / 2 ^ 54 from by norm_num]
  rw [show (1 : ℚ) / 2 ^ (54 + 1) = 1 / 2 ^ 55 from by norm_num]
  rw [roundDouble_two_pow_inv 54 (by norm_num), roundDouble_two_pow_inv 55 (by norm_num)]
  rw [show (2 ^ 53 - 1 : ℚ) / 2 ^ 53 + 1 / 2 ^ 54 = (2 ^ 54 - 1) / 2 ^ 54 from by norm_num]
  rw [roundDouble_tie54]
  rw [roundDouble_one_add (1 / 2 ^ 55) (by norm_num) (by norm_num)]
  rw [roundDouble_one]

end Decoder

/-- Counterexample to claim C9: the float sum of seven 0xFF bytes rounds
up to exactly 1 (the tie at the 54th one-bit breaks upward), violating the
claimed half-open range [0, 1); and the distinct pattern FF FF FF FF FF FF
FE also sums to exactly 1, violating strict monotonicity in the big-endian
bit pattern at equal length. -/
theorem c9_cex_float_sum_reaches_one :
    Decoder.decode_fraction (List.replicate 7 255) = 1 ∧
    Decoder.decode_fraction [255, 255, 255, 255, 255, 255, 254] = 1 ∧
    Decoder.beVal [255, 255, 255, 255, 255, 255, 254] ≠ Decoder.beVal (List.replicate 7 255) :=
  ⟨Decoder.decode_fraction_ff7, Decoder.decode_fraction_fffe, by decide⟩

/-- Claim C9 (amended): on byte sequences of at most 6 bytes (48 bits) the
binary64 summation is exact, and there decode_fraction lands in [0, 1), is
strictly monotone in the big-endian bit pattern over inputs of equal
length, and maps the all-zero byte sequence to exactly 0; from 54 one-bits
on, rounding can reach exactly 1. -/
theorem c9_amended_decode_fraction (bs : List Nat) (h : ∀ b ∈ bs, b < 256)
    (hlen : bs.length ≤ 6) :
    0 ≤ Decoder.decode_fraction bs ∧
    Decoder.decode_fraction bs < 1 ∧
    (∀ bs2 : List Nat, (∀ b ∈ bs2, b < 256) → bs2.length = bs.length →
      Decoder.beVal bs < Decoder.beVal bs2 →
      Decoder.decode_fraction bs < Decoder.decode_fraction bs2) ∧
    Decoder.decode_fraction (List.replicate bs.length 0) = 0 := by
  have key := Decoder.decode_fraction_exact h hlen
  have hpos : (0 : ℚ) < 256 ^ bs.length := by positivity
  refine ⟨?_, ?_, ?_, ?_⟩
  · rw [key]; positivity
  · rw [key, div_lt_one hpos]
    exact_mod_cast Decoder.beVal_lt h
  · intro bs2 h2 hl2 hlt
    rw [key, Decoder.decode_fraction_exact h2 (by omega), hl2]
    exact (div_lt_div_iff_of_pos_right hpos).mpr (by exact_mod_cast hlt)
  · have hzmem : ∀ b ∈ List.replicate bs.length (0 : ℕ), b < 256 := by
      intro b hbm
      rw [List.eq_of_mem_replicate hbm]
      omega
    rw [Decoder.decode_fraction_exact hzmem (by rw [List.length_replicate]; omega)]
    have hz : ∀ n, Decoder.beVal (List.replicate n 0) = 0 := by
      intro n
      induction n with
      | zero => rfl
      | succ kk ihh => simpa [List.replicate_succ, Decoder.beVal_cons] using ihh
    rw [hz]
    simp

/-- Witness for C9 at the one-byte input 0x80. -/
theorem c9_witness :
    0 ≤ Decoder.decode_fraction [128] ∧
    Decoder.decode_fraction [128] < 1 ∧
    (∀ bs2 : List Nat, (∀ b ∈ bs2, b < 256) → bs2.length = ([128] : List Nat).length →
      Decoder.beVal [128] < Decoder.beVal bs2 →
      Decoder.decode_fraction [128] < Decoder.decode_fraction bs2) ∧
    Decoder.decode_fraction (List.replicate ([128] : List Nat).length 0) = 0 :=
  c9_amended_decode_fraction [128] (by decide) (by decide)

theorem foldl_intFlagStep (ts : List (List Nat)) (b : Bool) :
    ts.foldl intFlagStep b = (b && ts.all (fun d => d.all isWholeF32)) := by
  induction ts generalizing b with
  | nil => simp
  | cons t r ih => simp [intFlagStep, ih, Bool.and_assoc]

/-- Claim C10: the convert_to_int flag accumulated over the decoded traces
is true exactly when every sample of every trace is a whole number (the
numpy test that the value modulo one is zero, false for NaN and infinite
patterns). -/
theorem c10_convert_to_int_iff (ts : List (List Nat)) :
    convertToInt ts = true ↔ ∀ t ∈ ts, ∀ x ∈ t, isWholeF32 x = true := by
  rw [convertToInt, foldl_intFlagStep]
  simp [List.all_eq_true]

/-- Claim C8: the trace header whose two file-number bytes are 0xFF 0xFF
decodes to file_number = 16665 (the BCD digit sum of four nibbles of 15),
not to the absent value the specification demands.  The normalization
branch of the source compares the BCD-decoded value against 0xFFFF =
65535, which a two-byte BCD decode (at most 16665) can never produce, so
the branch is dead and the all-ones sentinel leaks through as 16665. -/
theorem c8_file_number_sentinel_dead :
    (decodeTraceh (255 :: 255 :: List.replicate 18 0)).map (fun t => t.file_number)
      = .ok (some 16665) := rfl

/-- Claim C4, counterexample: on the empty input the format code decodes
to 0, general header 1 raises the unsupported-format error, and the error
leaves read_segd with the stream still open (the close flag is false):
the source has no try/finally around the decode, so a failing block decode
propagates without closing the stream. -/
theorem c4_cex_stream_not_closed_on_error :
    readSegd [] = (.error .segdNotImplemented, false, ⟨[], 0⟩) := rfl

/-- Claim C4 (amended): the stream is closed exactly when the decode
reaches the close call after the trace loop; after a successful decode it
is closed, but when any block decode raises, the error propagates with the
stream still open.  (Only the sample-matrix assembly, which runs after the
close, can fail with the stream already closed.) -/
theorem c4_amended_closed_iff_core_ok (data : List Nat) :
    (readSegd data).2.1 = (readSegdCore ⟨data, 0⟩).1.isOk := by
  rcases hr : readSegdCore ⟨data, 0⟩ with ⟨res, s⟩
  cases res with
  | ok p =>
    simp only [readSegd, hr]
    split <;> rfl
  | error e =>
    simp only [readSegd, hr]
    rfl

theorem ok_bind {α β : Type} (a : α) (f : α → Except Err β) :
    (Except.ok a >>= f) = f a := rfl

theorem error_bind {α β : Type} (e : Err) (f : α → Except Err β) :
    ((Except.error e : Except Err α) >>= f) = .error e := rfl

theorem throw_eq {α : Type} (e : Err) : (throw e : Except Err α) = .error e := rfl

theorem mem_slice {b : Nat} {bs : List Nat} {a c : Nat} (h : b ∈ slice bs a c) : b ∈ bs :=
  List.mem_of_mem_take (List.mem_of_mem_drop h)

theorem length_slice (bs : List Nat) (a c : Nat) :
    (slice bs a c).length = min c bs.length - a := by
  simp [slice]

theorem slice_take (bs : List Nat) (n a c : Nat) (h : c ≤ n) :
    slice (bs.take n) a c = slice bs a c := by
  simp [slice, List.take_take, Nat.min_eq_left h]

theorem slice_singleton (bs : List Nat) (i : Nat) (h : i < bs.length) :
    slice bs i (i + 1) = [bs[i]] := by
  rw [slice, List.drop_take, Nat.add_sub_cancel_left, List.drop_eq_getElem_cons h]
  rfl

namespace Decoder

theorem bcd_ok {b : Nat} (h : b < 256) : bcd b = .ok (b / 16, b % 16) := by
  simp only [bcd, if_neg (by omega : ¬ 255 < b)]

theorem decode_bin_ok {bs : List Nat} (h : bs.length ≤ 4) :
    decode_bin bs = .ok (beVal bs) := by
  simp only [decode_bin, if_neg (by omega : ¬ 4 < bs.length)]

theorem decode_bin_bool_ok {bs : List Nat} (h : bs.length ≤ 4) :
    decode_bin_bool bs = .ok (decide (0 < beVal bs)) := by
  rw [decode_bin_bool, decode_bin_ok h, ok_bind]

theorem decode_flt_ok {bs : List Nat} (h : bs.length ≤ 4) :
    decode_flt bs = .ok (if isNaN32 (beVal bs) then none else some (beVal bs)) := by
  rw [decode_flt, if_neg (by omega : ¬ 4 < bs.length)]
  split <;> rfl

theorem decode_dbl_ok {bs : List Nat} (h : bs.length = 8) :
    decode_dbl bs = .ok (beVal bs) := by
  simp only [decode_dbl, if_pos h]

theorem mapM_decode_bcd_ok {l : List Nat} (h : ∀ b ∈ l, b < 256) :
    l.mapM (fun b => decode_bcd [b]) = .ok (l.map (fun b => bcdNat [b])) := by
  induction l with
  | nil => rfl
  | cons a t ih =>
    have ha : a < 256 := h a (by simp)
    have hb : ∀ x ∈ ([a] : List Nat), x < 256 := by
      intro x hx
      rw [List.mem_singleton] at hx
      subst hx
      exact ha
    have ht := ih (fun x hx => h x (by simp [hx]))
    rw [List.mapM_cons, decode_bcd_ok hb, ht]
    rfl

end Decoder

theorem idx_ok {bs : List Nat} {i : Nat} (h : i < bs.length) :
    idx bs i = .ok bs[i] := by
  simp [idx, List.getElem?_eq_getElem h]

/-- General header 1 decoding stops with the unsupported-format error as
soon as the format code is wrong, independent of the remaining bytes. -/
theorem decodeGenHdr1_badFormat {buf : List Nat} (hv : ∀ b ∈ buf, b < 256)
    (hfmt : Decoder.bcdNat (slice buf 2 4) ≠ 8058) :
    decodeGenHdr1 buf = .error .segdNotImplemented := by
  have h02 : Decoder.decode_bcd (slice buf 0 2) = .ok (Decoder.bcdNat (slice buf 0 2)) :=
    Decoder.decode_bcd_ok (fun b hb => hv b (mem_slice hb))
  have h24 : Decoder.decode_bcd (slice buf 2 4) = .ok (Decoder.bcdNat (slice buf 2 4)) :=
    Decoder.decode_bcd_ok (fun b hb => hv b (mem_slice hb))
  simp only [decodeGenHdr1, h02, h24, ok_bind]
  simp [hfmt, throw_eq, error_bind]

theorem readGeneralHdr1_run (s : St) :
    readGeneralHdr1 s = (decodeGenHdr1 ((s.data.drop s.pos).take 32),
      ⟨s.data, s.pos + ((s.data.drop s.pos).take 32).length⟩) := rfl

/-- Claim C1: when the format code of general header 1 is not the
supported sentinel 8058, the whole decode fails with the
unsupported-format error having consumed at most the 32 bytes of general
header 1 — in particular no byte of the scan-type header section (which
starts at offset 96) or of any later section. -/
theorem c1_unsupported_format (data : List Nat) (hv : ∀ b ∈ data, b < 256)
    (hfmt : Decoder.bcdNat (slice data 2 4) ≠ 8058) :
    (readSegd data).1 = .error .segdNotImplemented ∧
    (readSegd data).2.2.pos ≤ 32 := by
  have hbuf : ∀ b ∈ data.take 32, b < 256 := fun b hb => hv b (List.mem_of_mem_take hb)
  have hsl : slice (data.take 32) 2 4 = slice data 2 4 := slice_take data 32 2 4 (by omega)
  have hbad : decodeGenHdr1 (data.take 32) = .error .segdNotImplemented :=
    decodeGenHdr1_badFormat hbuf (by rw [hsl]; exact hfmt)
  have hg1 : readGeneralHdr1 ⟨data, 0⟩
      = (.error .segdNotImplemented, ⟨data, 0 + (data.take 32).length⟩) := by
    rw [readGeneralHdr1_run]
    simp only [List.drop_zero]
    rw [hbad]
  have hcore : readSegdCore ⟨data, 0⟩
      = (.error .segdNotImplemented, ⟨data, 0 + (data.take 32).length⟩) :=
    M.run_bind_error hg1
  constructor
  · simp [readSegd, hcore]
  · simp [readSegd, hcore, List.length_take]

/-- Witness for C1 on a concrete four-byte input whose format code
decodes to 0. -/
theorem c1_witness :
    (readSegd [0, 0, 0, 0]).1 = .error .segdNotImplemented ∧
    (readSegd [0, 0, 0, 0]).2.2.pos ≤ 32 :=
  c1_unsupported_format [0, 0, 0, 0] (by decide) (by decide)

theorem pure_bind_ex {α β : Type} (a : α) (f : α → Except Err β) :
    ((pure a : Except Err α) >>= f) = f a := rfl

/-- Successful decoding of general header 1: with a 32-byte buffer of
valid bytes, the supported format code, and a nonzero base scan interval
byte, the decode succeeds and the sizing fields have the stated values. -/
theorem decodeGenHdr1_ok {buf : List Nat} (hlen : buf.length = 32)
    (hv : ∀ b ∈ buf, b < 256)
    (hfmt : Decoder.bcdNat (slice buf 2 4) = 8058)
    (hbsi : Decoder.bcdNat (slice buf 22 23) ≠ 0) :
    ∃ g1 : GenHdr1, decodeGenHdr1 buf = .ok g1 ∧
      g1.n_channel_sets_per_record = Decoder.bcdNat (slice buf 28 29) ∧
      g1.extended_header_length = Decoder.bcdNat (slice buf 30 31) ∧
      g1.external_header_length =
        (if Decoder.bcdNat (slice buf 31 32) = 255 then none
         else some (Decoder.bcdNat (slice buf 31 32))) := by
  have hmem : ∀ a c : Nat, ∀ b ∈ slice buf a c, b < 256 := fun a c b hb => hv b (mem_slice hb)
  have h02 := Decoder.decode_bcd_ok (hmem 0 2)
  have h24 := Decoder.decode_bcd_ok (hmem 2 4)
  have hgc := Decoder.mapM_decode_bcd_ok (hmem 4 10)
  have h10 := Decoder.decode_bcd_ok (hmem 10 11)
  have h12 := Decoder.decode_bcd_ok (hmem 12 13)
  have h13 := Decoder.decode_bcd_ok (hmem 13 14)
  have h14 := Decoder.decode_bcd_ok (hmem 14 15)
  have h15 := Decoder.decode_bcd_ok (hmem 15 16)
  have h16 := Decoder.decode_bcd_ok (hmem 16 17)
  have h17 := Decoder.decode_bcd_ok (hmem 17 19)
  have h19 := Decoder.decode_bcd_ok (hmem 19 22)
  have h22 := Decoder.decode_bcd_ok (hmem 22 23)
  have h27 := Decoder.decode_bcd_ok (hmem 27 28)
  have h28 := Decoder.decode_bcd_ok (hmem 28 29)
  have h29 := Decoder.decode_bcd_ok (hmem 29 30)
  have h30 := Decoder.decode_bcd_ok (hmem 30 31)
  have h31 := Decoder.decode_bcd_ok (hmem 31 32)
  have hi11 : idx buf 11 = .ok buf[11] := idx_ok (by omega)
  have hi23 : idx buf 23 = .ok buf[23] := idx_ok (by omega)
  have hi25 : idx buf 25 = .ok buf[25] := idx_ok (by omega)
  have hb11 : Decoder.bcd buf[11] = .ok (buf[11] / 16, buf[11] % 16) :=
    Decoder.bcd_ok (hv _ (buf.getElem_mem (by omega)))
  have hb23 : Decoder.bcd buf[23] = .ok (buf[23] / 16, buf[23] % 16) :=
    Decoder.bcd_ok (hv _ (buf.getElem_mem (by omega)))
  have hb25 : Decoder.bcd buf[25] = .ok (buf[25] / 16, buf[25] % 16) :=
    Decoder.bcd_ok (hv _ (buf.getElem_mem (by omega)))
  have h26 : Decoder.decode_bin (slice buf 26 27) = .ok (Decoder.beVal (slice buf 26 27)) :=
    Decoder.decode_bin_ok (by rw [length_slice]; omega)
  simp only [decodeGenHdr1, h02, h24, hfmt, hgc, h10, hi11, hb11, h12, h13, h14, h15,
    h16, h17, h19, h22, hi23, hb23, hi25, hb25, h26, h27, h28, h29, h30, h31,
    ok_bind, pure_bind_ex, ne_eq, not_true_eq_false, if_false, ite_self]
  rcases Nat.lt_or_ge (Decoder.bcdNat (slice buf 22 23)) 10 with hblt | hblt
  · simp only [if_pos hblt, if_neg hbsi]
    exact ⟨_, rfl, rfl, rfl, rfl⟩
  · simp only [if_neg (Nat.not_lt.mpr hblt)]
    exact ⟨_, rfl, rfl, rfl, rfl⟩

/-- Claim C5: a general header 1 whose external-header-length byte (byte
31) is 0xFF decodes that field to 165 (the BCD digit value of two nibbles
of 15), the resolution step of read_segd therefore replaces it with the
external_header_blocks count of general header 2, and the external header
read advances the cursor by external_header_blocks * 32 bytes (capped by
the end of the stream). -/
theorem c5_external_header_overflow (buf : List Nat) (g2 : GenHdr2)
    (hlen : buf.length = 32) (hv : ∀ b ∈ buf, b < 256)
    (hfmt : Decoder.bcdNat (slice buf 2 4) = 8058)
    (hbsi : Decoder.bcdNat (slice buf 22 23) ≠ 0)
    (h31 : buf[31]? = some 255) :
    ∃ g1 : GenHdr1, decodeGenHdr1 buf = .ok g1 ∧
      g1.external_header_length = some 165 ∧
      resolveExtHdrLen g1 g2 = some g2.external_header_blocks ∧
      (∀ s : St, (readExternalHeader (g2.external_header_blocks * 32) s).2.pos
        = s.pos + min (g2.external_header_blocks * 32) (s.data.length - s.pos)) := by
  obtain ⟨g1, hok, _, _, hehl⟩ := decodeGenHdr1_ok hlen hv hfmt hbsi
  have hi : (31 : Nat) < buf.length := by omega
  have hb31 : buf[31] = 255 := by
    rw [List.getElem?_eq_getElem hi] at h31
    exact Option.some.inj h31
  have hsl : slice buf 31 32 = [255] := by
    have hs := slice_singleton buf 31 hi
    rw [hb31] at hs
    exact hs
  have h165 : Decoder.bcdNat (slice buf 31 32) = 165 := by rw [hsl]; rfl
  have hehl165 : g1.external_header_length = some 165 := by
    rw [hehl, h165]
    norm_num
  refine ⟨g1, hok, hehl165, ?_, ?_⟩
  · simp [resolveExtHdrLen, hehl165]
  · intro s
    simp [readExternalHeader, M.run_bind, M.run_readBytes, M.run_pure,
      List.length_take, List.length_drop]

/-- Witness for C5 on a concrete header buffer with format code 8058,
base scan interval byte 1, byte 31 equal to 0xFF, and a general header 2
declaring two external header blocks. -/
theorem c5_witness :
    ∃ g1 : GenHdr1,
      decodeGenHdr1 [0, 0, 128, 88, 0, 0, 0, 0, 0, 0, 0, 0, 0, 0, 0, 0, 0, 0, 0, 0,
        0, 0, 1, 0, 0, 0, 0, 0, 0, 0, 0, 255] = .ok g1 ∧
      g1.external_header_length = some 165 ∧
      resolveExtHdrLen g1 ⟨0, 2, 0, 0, 0, 0⟩ = some (GenHdr2.external_header_blocks ⟨0, 2, 0, 0, 0, 0⟩) ∧
      (∀ s : St, (readExternalHeader ((GenHdr2.external_header_blocks ⟨0, 2, 0, 0, 0, 0⟩) * 32) s).2.pos
        = s.pos + min ((GenHdr2.external_header_blocks ⟨0, 2, 0, 0, 0, 0⟩) * 32) (s.data.length - s.pos)) :=
  c5_external_header_overflow
    [0, 0, 128, 88, 0, 0, 0, 0, 0, 0, 0, 0, 0, 0, 0, 0, 0, 0, 0, 0,
     0, 0, 1, 0, 0, 0, 0, 0, 0, 0, 0, 255] ⟨0, 2, 0, 0, 0, 0⟩
    (by decide) (by decide) (by decide) (by decide) (by decide)

/-- Scan type block decoding is total on valid 32-byte buffers: an
all-zero buffer raises exactly the empty-scan-type error, any other
buffer decodes, keyed by the BCD value of byte 1. -/
theorem decodeSch_total {buf : List Nat} (hlen : buf.length = 32)
    (hv : ∀ b ∈ buf, b < 256) :
    (buf.sum = 0 ∧ decodeSch buf = .error .segdScanTypeError) ∨
    (buf.sum ≠ 0 ∧ ∃ s, decodeSch buf = .ok s ∧
      s.channel_set_number = Decoder.bcdNat (slice buf 1 2)) := by
  by_cases h0 : buf.sum = 0
  · left
    refine ⟨h0, ?_⟩
    simp [decodeSch, h0, throw_eq, error_bind]
  · right
    refine ⟨h0, ?_⟩
    have hmem : ∀ a c : Nat, ∀ b ∈ slice buf a c, b < 256 := fun a c b hb => hv b (mem_slice hb)
    have hs01 := Decoder.decode_bcd_ok (hmem 0 1)
    have hs12 := Decoder.decode_bcd_ok (hmem 1 2)
    have hs810 := Decoder.decode_bcd_ok (hmem 8 10)
    have hs1214 := Decoder.decode_bcd_ok (hmem 12 14)
    have hs1416 := Decoder.decode_bcd_ok (hmem 14 16)
    have hs1618 := Decoder.decode_bcd_ok (hmem 16 18)
    have hs1820 := Decoder.decode_bcd_ok (hmem 18 20)
    have hs2022 := Decoder.decode_bcd_ok (hmem 20 22)
    have hs2224 := Decoder.decode_bcd_ok (hmem 22 24)
    have hs2426 := Decoder.decode_bcd_ok (hmem 24 26)
    have hs2628 := Decoder.decode_bcd_ok (hmem 26 28)
    have hb24 : Decoder.decode_bin (slice buf 2 4) = .ok (Decoder.beVal (slice buf 2 4)) :=
      Decoder.decode_bin_ok (by rw [length_slice]; omega)
    have hb46 : Decoder.decode_bin (slice buf 4 6) = .ok (Decoder.beVal (slice buf 4 6)) :=
      Decoder.decode_bin_ok (by rw [length_slice]; omega)
    have hb68 : Decoder.decode_bin ((slice buf 6 8).reverse)
        = .ok (Decoder.beVal ((slice buf 6 8).reverse)) :=
      Decoder.decode_bin_ok (by rw [List.length_reverse, length_slice]; omega)
    have hb2930 : Decoder.decode_bin (slice buf 29 30) = .ok (Decoder.beVal (slice buf 29 30)) :=
      Decoder.decode_bin_ok (by rw [length_slice]; omega)
    have hb3031 : Decoder.decode_bin (slice buf 30 31) = .ok (Decoder.beVal (slice buf 30 31)) :=
      Decoder.decode_bin_ok (by rw [length_slice]; omega)
    have hb3132 : Decoder.decode_bin (slice buf 31 32) = .ok (Decoder.beVal (slice buf 31 32)) :=
      Decoder.decode_bin_ok (by rw [length_slice]; omega)
    have hi10 : idx buf 10 = .ok buf[10] := idx_ok (by omega)
    have hi11 : idx buf 11 = .ok buf[11] := idx_ok (by omega)
    have hi28 : idx buf 28 = .ok buf[28] := idx_ok (by omega)
    have hn10 : Decoder.bcd buf[10] = .ok (buf[10] / 16, buf[10] % 16) :=
      Decoder.bcd_ok (hv _ (buf.getElem_mem (by omega)))
    have hn11 : Decoder.bcd buf[11] = .ok (buf[11] / 16, buf[11] % 16) :=
      Decoder.bcd_ok (hv _ (buf.getElem_mem (by omega)))
    have hn28 : Decoder.bcd buf[28] = .ok (buf[28] / 16, buf[28] % 16) :=
      Decoder.bcd_ok (hv _ (buf.getElem_mem (by omega)))
    simp only [decodeSch, if_neg h0, hs01, hs12, hs810, hs1214, hs1416, hs1618, hs1820,
      hs2022, hs2224, hs2426, hs2628, hb24, hb46, hb68, hb2930, hb3031, hb3132,
      hi10, hi11, hi28, hn10, hn11, hn28, ok_bind, pure_bind_ex]
    exact ⟨_, rfl, rfl⟩

theorem dictInsert_fresh {t : List (Nat × Sch)} {k : Nat} {v : Sch}
    (h : ∀ p ∈ t, p.1 ≠ k) : dictInsert t k v = t ++ [(k, v)] := by
  rw [dictInsert, if_neg]
  simp only [List.any_eq_true, decide_eq_true_eq, not_exists, not_and]
  intro p hp
  exact h p hp

/-- Running the scan type loop on a stream positioned at the
concatenation of the declared blocks: it never fails, consumes exactly 32
bytes per declared block, and produces the fold of the block list. -/
theorem readSchLoop_spec (bufs : List (List Nat)) (d tail : List Nat)
    (table : List (Nat × Sch))
    (hb : ∀ b ∈ bufs, b.length = 32 ∧ ∀ x ∈ b, x < 256) :
    readSchLoop bufs.length table ⟨d ++ (bufs.flatten ++ tail), d.length⟩
      = (.ok (schTableFold bufs table),
         ⟨d ++ (bufs.flatten ++ tail), d.length + 32 * bufs.length⟩) := by
  induction bufs generalizing d table with
  | nil => simp [readSchLoop, schTableFold, M.run_pure]
  | cons b r ih =>
    obtain ⟨hbl, hbv⟩ := hb b (by simp)
    have hbr : ∀ x ∈ r, x.length = 32 ∧ ∀ y ∈ x, y < 256 :=
      fun x hx => hb x (List.mem_cons_of_mem _ hx)
    have hdata : d ++ ((b :: r).flatten ++ tail) = (d ++ b) ++ (r.flatten ++ tail) := by
      simp [List.append_assoc]
    have hrb : readBytes 32 ⟨d ++ ((b :: r).flatten ++ tail), d.length⟩
        = (.ok b, ⟨d ++ ((b :: r).flatten ++ tail), d.length + 32⟩) := by
      rw [M.run_readBytes]
      have hdrop : ((d ++ ((b :: r).flatten ++ tail)).drop d.length) = b ++ (r.flatten ++ tail) := by
        rw [show d ++ ((b :: r).flatten ++ tail) = d ++ (b ++ (r.flatten ++ tail)) by
          simp [List.append_assoc]]
        exact List.drop_left d _
      have htake : (b ++ (r.flatten ++ tail)).take 32 = b := by
        rw [← hbl]
        exact List.take_left b _
      simp only [hdrop, htake, hbl]
    have hpos : (d ++ b).length = d.length + 32 := by simp [hbl]
    simp only [List.length_cons, readSchLoop]
    rw [M.run_bind_ok hrb]
    rcases decodeSch_total hbl hbv with ⟨h0, herr⟩ | ⟨h0, s, hok, hkey⟩
    · simp only [herr]
      have := ih (d ++ b) table hbr
      rw [hpos, ← hdata] at this
      rw [this]
      have hfold : schTableFold (b :: r) table = schTableFold r table := by
        simp only [schTableFold, herr]
      have harith : d.length + 32 + 32 * r.length = d.length + 32 * (r.length + 1) := by ring
      rw [hfold, harith]
    · simp only [hok]
      have := ih (d ++ b) (dictInsert table s.channel_set_number s) hbr
      rw [hpos, ← hdata] at this
      rw [this]
      have hfold : schTableFold (b :: r) table
          = schTableFold r (dictInsert table s.channel_set_number s) := by
        simp only [schTableFold, hok]
      have harith : d.length + 32 + 32 * r.length = d.length + 32 * (r.length + 1) := by ring
      rw [hfold, harith]

/-- Size of the folded scan type table when the keys of the nonzero blocks
avoid each other and the existing table. -/
theorem schTableFold_count (bufs : List (List Nat)) (t : List (Nat × Sch))
    (hb : ∀ b ∈ bufs, b.length = 32 ∧ ∀ x ∈ b, x < 256)
    (hnd : (tableKeys t ++ nonzeroKeys bufs).Nodup) :
    (schTableFold bufs t).length = t.length + (nonzeroKeys bufs).length := by
  induction bufs generalizing t with
  | nil => simp [schTableFold, nonzeroKeys]
  | cons b r ih =>
    obtain ⟨hbl, hbv⟩ := hb b (by simp)
    have hbr : ∀ x ∈ r, x.length = 32 ∧ ∀ y ∈ x, y < 256 :=
      fun x hx => hb x (List.mem_cons_of_mem _ hx)
    rcases decodeSch_total hbl hbv with ⟨h0, herr⟩ | ⟨h0, s, hok, hkey⟩
    · have hnz : nonzeroKeys (b :: r) = nonzeroKeys r := by
        simp [nonzeroKeys, List.filter_cons, h0]
      have hfold : schTableFold (b :: r) t = schTableFold r t := by
        simp only [schTableFold, herr]
      rw [hfold, hnz]
      exact ih t hbr (by rwa [hnz] at hnd)
    · have hnz : nonzeroKeys (b :: r)
          = Decoder.bcdNat (slice b 1 2) :: nonzeroKeys r := by
        simp [nonzeroKeys, List.filter_cons, h0]
      rw [hnz] at hnd
      have hfresh : ∀ p ∈ t, p.1 ≠ s.channel_set_number := by
        intro p hp heq
        have hmemk : Decoder.bcdNat (slice b 1 2) ∈ tableKeys t := by
          rw [← hkey, ← heq]
          exact List.mem_map_of_mem _ hp
        have hdisj := (List.nodup_append.mp hnd).2.2
        exact hdisj hmemk (List.mem_cons_self _ _)
      have hfold : schTableFold (b :: r) t
          = schTableFold r (dictInsert t s.channel_set_number s) := by
        simp only [schTableFold, hok]
      rw [hfold, dictInsert_fresh hfresh]
      have hkeys : tableKeys (t ++ [(s.channel_set_number, s)])
          = tableKeys t ++ [s.channel_set_number] := by
        simp [tableKeys]
      have hnd2 : (tableKeys (t ++ [(s.channel_set_number, s)]) ++ nonzeroKeys r).Nodup := by
        rw [hkeys, hkey]
        rw [← List.append_cons]
        exact hnd
      have := ih (t ++ [(s.channel_set_number, s)]) hbr hnd2
      rw [this, hnz]
      simp
      omega

theorem length_filter_nonzero (l : List (List Nat)) :
    (l.filter (fun b => decide (b.sum ≠ 0))).length
      = l.length - (l.filter (fun b => decide (b.sum = 0))).length := by
  induction l with
  | nil => rfl
  | cons b r ih =>
    have hle := List.length_filter_le (fun b => decide (b.sum = 0)) r
    by_cases h : b.sum = 0
    · have h1 : (b :: r).filter (fun b => decide (b.sum ≠ 0))
          = r.filter (fun b => decide (b.sum ≠ 0)) := by
        simp [List.filter_cons, h]
      have h2 : (b :: r).filter (fun b => decide (b.sum = 0))
          = b :: r.filter (fun b => decide (b.sum = 0)) := by
        simp [List.filter_cons, h]
      rw [h1, h2, ih]
      simp only [List.length_cons]
      omega
    · have h1 : (b :: r).filter (fun b => decide (b.sum ≠ 0))
          = b :: r.filter (fun b => decide (b.sum ≠ 0)) := by
        simp [List.filter_cons, h]
      have h2 : (b :: r).filter (fun b => decide (b.sum = 0))
          = r.filter (fun b => decide (b.sum = 0)) := by
        simp [List.filter_cons, h]
      rw [h1, h2]
      simp only [List.length_cons, ih]
      omega

/-- Claim C3, counterexample: two declared scan type blocks, none of them
all-zero, but carrying the same channel set number 1; the loop succeeds
and the table has a single entry, not 2 - 0 = 2 as the claim states,
because the second insertion overwrites the first. -/
theorem c3_cex_duplicate_keys :
    (readSchLoop 2 []
        ⟨(0 :: 1 :: List.replicate 30 0) ++ (0 :: 1 :: List.replicate 30 0), 0⟩).1.map
      (fun t => t.length) = .ok 1 ∧ (1 : Nat) ≠ 2 - 0 := by
  constructor
  · rfl
  · decide

/-- Claim C3 (amended): the scan type loop over N declared 32-byte blocks
of which M are all zero skips every all-zero block without error and
consumes exactly 32 bytes per declared block; the resulting table has one
entry per distinct channel set number of the nonzero blocks, which equals
N - M exactly when those keys are pairwise distinct (duplicate keys
overwrite, last wins, giving fewer entries). -/
theorem c3_amended_scan_table (bufs : List (List Nat)) (d tail : List Nat)
    (hb : ∀ b ∈ bufs, b.length = 32 ∧ ∀ x ∈ b, x < 256)
    (hnd : (nonzeroKeys bufs).Nodup) :
    readSchLoop bufs.length [] ⟨d ++ (bufs.flatten ++ tail), d.length⟩
      = (.ok (schTableFold bufs []),
        ⟨d ++ (bufs.flatten ++ tail), d.length + 32 * bufs.length⟩) ∧
    (schTableFold bufs []).length
      = bufs.length - (bufs.filter (fun b => decide (b.sum = 0))).length := by
  refine ⟨readSchLoop_spec bufs d tail [] hb, ?_⟩
  have hc := schTableFold_count bufs [] hb (by simpa [tableKeys] using hnd)
  rw [hc]
  have hlen : (nonzeroKeys bufs).length
      = (bufs.filter (fun b => decide (b.sum ≠ 0))).length := by
    simp [nonzeroKeys]
  rw [hlen, length_filter_nonzero]
  simp

/-- Witness for C3 with one all-zero block followed by one nonzero block:
N = 2, M = 1, one table entry. -/
theorem c3_witness :
    readSchLoop ([List.replicate 32 0, 0 :: 1 :: List.replicate 30 0] : List (List Nat)).length []
        ⟨[] ++ (([List.replicate 32 0, 0 :: 1 :: List.replicate 30 0] : List (List Nat)).flatten ++ []),
         ([] : List Nat).length⟩
      = (.ok (schTableFold [List.replicate 32 0, 0 :: 1 :: List.replicate 30 0] []),
        ⟨[] ++ (([List.replicate 32 0, 0 :: 1 :: List.replicate 30 0] : List (List Nat)).flatten ++ []),
         ([] : List Nat).length + 32 * ([List.replicate 32 0, 0 :: 1 :: List.replicate 30 0] : List (List Nat)).length⟩) ∧
    (schTableFold [List.replicate 32 0, 0 :: 1 :: List.replicate 30 0] []).length
      = ([List.replicate 32 0, 0 :: 1 :: List.replicate 30 0] : List (List Nat)).length
        - (([List.replicate 32 0, 0 :: 1 :: List.replicate 30 0] : List (List Nat)).filter
            (fun b => decide (b.sum = 0))).length :=
  c3_amended_scan_table [List.replicate 32 0, 0 :: 1 :: List.replicate 30 0] [] []
    (by decide) (by decide)

/-- Trace header decoding succeeds on valid bytes; the extension count is
the value of byte 9. -/
theorem decodeTraceh_ok {buf : List Nat} (hv : ∀ b ∈ buf, b < 256) :
    ∃ th, decodeTraceh buf = .ok th ∧
      th.trace_header_extension = Decoder.beVal (slice buf 9 10) := by
  have hmem : ∀ a c : Nat, ∀ b ∈ slice buf a c, b < 256 := fun a c b hb => hv b (mem_slice hb)
  have hl : ∀ a c : Nat, c - a ≤ 4 → (slice buf a c).length ≤ 4 := by
    intro a c h
    rw [length_slice]
    omega
  have h02 := Decoder.decode_bcd_ok (hmem 0 2)
  have h23 := Decoder.decode_bcd_ok (hmem 2 3)
  have h34 := Decoder.decode_bcd_ok (hmem 3 4)
  have h46 := Decoder.decode_bcd_ok (hmem 4 6)
  have hb69 := Decoder.decode_bin_ok (hl 6 9 (by omega))
  have hb910 := Decoder.decode_bin_ok (hl 9 10 (by omega))
  have hb1011 := Decoder.decode_bin_ok (hl 10 11 (by omega))
  have hb1112 := Decoder.decode_bin_ok (hl 11 12 (by omega))
  have hb1214 := Decoder.decode_bin_ok (hl 12 14 (by omega))
  have hb1415 := Decoder.decode_bin_ok (hl 14 15 (by omega))
  have hb1516 := Decoder.decode_bin_ok (hl 15 16 (by omega))
  have hb1720 := Decoder.decode_bin_ok (hl 17 20 (by omega))
  simp only [decodeTraceh, h02, h23, h34, h46, hb69, hb910, hb1011, hb1112, hb1214,
    hb1415, hb1516, hb1720, ok_bind, pure_bind_ex]
  exact ⟨_, rfl, rfl⟩

theorem decodeEb1_ok (buf : List Nat) (hlen : buf.length = 32) :
    ∃ e, decodeEb1 buf = .ok e := by
  have hl : ∀ a c : Nat, c - a ≤ 4 → (slice buf a c).length ≤ 4 := by
    intro a c h
    rw [length_slice]
    omega
  simp only [decodeEb1, Decoder.decode_bin_ok (hl 0 3 (by omega)),
    Decoder.decode_bin_ok (hl 3 6 (by omega)), Decoder.decode_bin_ok (hl 6 7 (by omega)),
    Decoder.decode_bin_ok (hl 7 10 (by omega)), ok_bind, pure_bind_ex]
  exact ⟨_, rfl⟩

theorem decodeEb2_ok (buf : List Nat) (hlen : buf.length = 32) :
    ∃ e, decodeEb2 buf = .ok e := by
  have hl : ∀ a c : Nat, c - a ≤ 4 → (slice buf a c).length ≤ 4 := by
    intro a c h
    rw [length_slice]
    omega
  have h8 : ∀ a c : Nat, c ≤ 32 → c - a = 8 → (slice buf a c).length = 8 := by
    intro a c hc h
    rw [length_slice]
    omega
  simp only [decodeEb2, Decoder.decode_dbl_ok (h8 0 8 (by omega) (by omega)),
    Decoder.decode_dbl_ok (h8 8 16 (by omega) (by omega)),
    Decoder.decode_flt_ok (hl 16 20 (by omega)),
    Decoder.decode_bin_ok (hl 20 21 (by omega)), Decoder.decode_bin_ok (hl 24 28 (by omega)),
    Decoder.decode_bin_ok (hl 28 32 (by omega)), ok_bind, pure_bind_ex]
  exact ⟨_, rfl⟩

theorem decodeEb3_ok (buf : List Nat) (hlen : buf.length = 32) :
    ∃ e, decodeEb3 buf = .ok e := by
  have hl : ∀ a c : Nat, c - a ≤ 4 → (slice buf a c).length ≤ 4 := by
    intro a c h
    rw [length_slice]
    omega
  simp only [decodeEb3, Decoder.decode_flt_ok (hl 0 4 (by omega)),
    Decoder.decode_flt_ok (hl 4 8 (by omega)), Decoder.decode_flt_ok (hl 8 12 (by omega)),
    Decoder.decode_flt_ok (hl 12 16 (by omega)), Decoder.decode_flt_ok (hl 16 20 (by omega)),
    Decoder.decode_bin_bool_ok (hl 20 21 (by omega)),
    Decoder.decode_bin_bool_ok (hl 21 22 (by omega)), ok_bind, pure_bind_ex]
  exact ⟨_, rfl⟩

theorem decodeEb4_ok (buf : List Nat) (hlen : buf.length = 32) :
    ∃ e, decodeEb4 buf = .ok e := by
  have hl : ∀ a c : Nat, c - a ≤ 4 → (slice buf a c).length ≤ 4 := by
    intro a c h
    rw [length_slice]
    omega
  simp only [decodeEb4, Decoder.decode_flt_ok (hl 0 4 (by omega)),
    Decoder.decode_flt_ok (hl 4 8 (by omega)), Decoder.decode_flt_ok (hl 8 12 (by omega)),
    Decoder.decode_flt_ok (hl 12 16 (by omega)), Decoder.decode_flt_ok (hl 16 20 (by omega)),
    Decoder.decode_flt_ok (hl 20 24 (by omega)),
    Decoder.decode_bin_bool_ok (hl 24 25 (by omega)),
    Decoder.decode_bin_bool_ok (hl 25 26 (by omega)), ok_bind, pure_bind_ex]
  exact ⟨_, rfl⟩

theorem decodeEb5_ok (buf : List Nat) (hlen : buf.length = 32) :
    ∃ e, decodeEb5 buf = .ok e := by
  have hl : ∀ a c : Nat, c - a ≤ 4 → (slice buf a c).length ≤ 4 := by
    intro a c h
    rw [length_slice]
    omega
  have h8 : ∀ a c : Nat, c ≤ 32 → c - a = 8 → (slice buf a c).length = 8 := by
    intro a c hc h
    rw [length_slice]
    omega
  simp only [decodeEb5, Decoder.decode_flt_ok (hl 0 4 (by omega)),
    Decoder.decode_flt_ok (hl 4 8 (by omega)),
    Decoder.decode_dbl_ok (h8 8 16 (by omega) (by omega)),
    Decoder.decode_dbl_ok (h8 16 24 (by omega) (by omega)),
    Decoder.decode_bin_bool_ok (hl 24 25 (by omega)),
    Decoder.decode_bin_ok (hl 25 28 (by omega)),
    Decoder.decode_flt_ok (hl 28 32 (by omega)), ok_bind, pure_bind_ex]
  exact ⟨_, rfl⟩

theorem decodeEb6_ok (buf : List Nat) (hlen : buf.length = 32) :
    ∃ e, decodeEb6 buf = .ok e := by
  have hl : ∀ a c : Nat, c - a ≤ 4 → (slice buf a c).length ≤ 4 := by
    intro a c h
    rw [length_slice]
    omega
  simp only [decodeEb6, Decoder.decode_bin_ok (hl 0 1 (by omega)),
    Decoder.decode_bin_ok (hl 1 4 (by omega)), Decoder.decode_bin_ok (hl 4 5 (by omega)),
    Decoder.decode_bin_ok (hl 8 9 (by omega)), Decoder.decode_bin_ok (hl 9 12 (by omega)),
    Decoder.decode_bin_ok (hl 12 13 (by omega)), Decoder.decode_bin_ok (hl 16 17 (by omega)),
    Decoder.decode_bin_ok (hl 17 18 (by omega)),
    Decoder.decode_flt_ok (hl 20 24 (by omega)), ok_bind, pure_bind_ex]
  exact ⟨_, rfl⟩

theorem decodeEb7_ok (buf : List Nat) (hlen : buf.length = 32) :
    ∃ e, decodeEb7 buf = .ok e := by
  have hl : ∀ a c : Nat, c - a ≤ 4 → (slice buf a c).length ≤ 4 := by
    intro a c h
    rw [length_slice]
    omega
  simp only [decodeEb7, Decoder.decode_bin_ok (hl 0 1 (by omega)),
    Decoder.decode_flt_ok (hl 16 20 (by omega)), Decoder.decode_bin_ok (hl 20 24 (by omega)),
    Decoder.decode_bin_ok (hl 24 28 (by omega)), Decoder.decode_bin_ok (hl 28 32 (by omega)),
    ok_bind, pure_bind_ex]
  exact ⟨_, rfl⟩

theorem readTraceh_run (s : St) :
    readTraceh s = (decodeTraceh ((s.data.drop s.pos).take 20),
      ⟨s.data, s.pos + ((s.data.drop s.pos).take 20).length⟩) := rfl

theorem readTracehEb1_run (s : St) :
    readTracehEb1 s = (decodeEb1 ((s.data.drop s.pos).take 32),
      ⟨s.data, s.pos + ((s.data.drop s.pos).take 32).length⟩) := rfl

theorem readTracehEb2_run (s : St) :
    readTracehEb2 s = (decodeEb2 ((s.data.drop s.pos).take 32),
      ⟨s.data, s.pos + ((s.data.drop s.pos).take 32).length⟩) := rfl

theorem readTracehEb3_run (s : St) :
    readTracehEb3 s = (decodeEb3 ((s.data.drop s.pos).take 32),
      ⟨s.data, s.pos + ((s.data.drop s.pos).take 32).length⟩) := rfl

theorem readTracehEb4_run (s : St) :
    readTracehEb4 s = (decodeEb4 ((s.data.drop s.pos).take 32),
      ⟨s.data, s.pos + ((s.data.drop s.pos).take 32).length⟩) := rfl

theorem readTracehEb5_run (s : St) :
    readTracehEb5 s = (decodeEb5 ((s.data.drop s.pos).take 32),
      ⟨s.data, s.pos + ((s.data.drop s.pos).take 32).length⟩) := rfl

theorem readTracehEb6_run (s : St) :
    readTracehEb6 s = (decodeEb6 ((s.data.drop s.pos).take 32),
      ⟨s.data, s.pos + ((s.data.drop s.pos).take 32).length⟩) := rfl

theorem readTracehEb7_run (s : St) :
    readTracehEb7 s = (decodeEb7 ((s.data.drop s.pos).take 32),
      ⟨s.data, s.pos + ((s.data.drop s.pos).take 32).length⟩) := rfl

theorem ebChain0 {data : List Nat} {p : Nat} {e : Eb1} (r : TraceRec)
    (h : decodeEb1 ((data.drop p).take 32) = .ok e)
    (hl : ((data.drop p).take 32).length = 32) :
    readEbStep 0 r ⟨data, p⟩ = (.ok { r with eb1 := some e }, ⟨data, p + 32⟩) := by
  simp only [readEbStep]
  rw [M.run_bind, readTracehEb1_run]
  simp only [h, hl, M.run_pure]

theorem ebChain1 {data : List Nat} {p : Nat} {e : Eb2} (r : TraceRec)
    (h : decodeEb2 ((data.drop p).take 32) = .ok e)
    (hl : ((data.drop p).take 32).length = 32) :
    readEbStep 1 r ⟨data, p⟩ = (.ok { r with eb2 := some e }, ⟨data, p + 32⟩) := by
  simp only [readEbStep]
  rw [M.run_bind, readTracehEb2_run]
  simp only [h, hl, M.run_pure]

theorem ebChain2 {data : List Nat} {p : Nat} {e : Eb3} (r : TraceRec)
    (h : decodeEb3 ((data.drop p).take 32) = .ok e)
    (hl : ((data.drop p).take 32).length = 32) :
    readEbStep 2 r ⟨data, p⟩ = (.ok { r with eb3 := some e }, ⟨data, p + 32⟩) := by
  simp only [readEbStep]
  rw [M.run_bind, readTracehEb3_run]
  simp only [h, hl, M.run_pure]

theorem ebChain3 {data : List Nat} {p : Nat} {e : Eb4} (r : TraceRec)
    (h : decodeEb4 ((data.drop p).take 32) = .ok e)
    (hl : ((data.drop p).take 32).length = 32) :
    readEbStep 3 r ⟨data, p⟩ = (.ok { r with eb4 := some e }, ⟨data, p + 32⟩) := by
  simp only [readEbStep]
  rw [M.run_bind, readTracehEb4_run]
  simp only [h, hl, M.run_pure]

theorem ebChain4 {data : List Nat} {p : Nat} {e : Eb5} (r : TraceRec)
    (h : decodeEb5 ((data.drop p).take 32) = .ok e)
    (hl : ((data.drop p).take 32).length = 32) :
    readEbStep 4 r ⟨data, p⟩ = (.ok { r with eb5 := some e }, ⟨data, p + 32⟩) := by
  simp only [readEbStep]
  rw [M.run_bind, readTracehEb5_run]
  simp only [h, hl, M.run_pure]

theorem ebChain5 {data : List Nat} {p : Nat} {e : Eb6} (r : TraceRec)
    (h : decodeEb6 ((data.drop p).take 32) = .ok e)
    (hl : ((data.drop p).take 32).length = 32) :
    readEbStep 5 r ⟨data, p⟩ = (.ok { r with eb6 := some e }, ⟨data, p + 32⟩) := by
  simp only [readEbStep]
  rw [M.run_bind, readTracehEb6_run]
  simp only [h, hl, M.run_pure]

theorem ebChain6 {data : List Nat} {p : Nat} {e : Eb7} (r : TraceRec)
    (h : decodeEb7 ((data.drop p).take 32) = .ok e)
    (hl : ((data.drop p).take 32).length = 32) :
    readEbStep 6 r ⟨data, p⟩ = (.ok { r with eb7 := some e }, ⟨data, p + 32⟩) := by
  simp only [readEbStep]
  rw [M.run_bind, readTracehEb7_run]
  simp only [h, hl, M.run_pure]

theorem readTraceData_run {n : Nat} {s : St}
    (h : n * 4 ≤ s.data.length - s.pos) :
    readTraceData n s
      = (.ok ((chunks4 ((s.data.drop s.pos).take (n * 4))).map Decoder.beVal),
         ⟨s.data, s.pos + n * 4⟩) := by
  have hlen2 : ((s.data.drop s.pos).take (n * 4)).length = n * 4 := by
    rw [List.length_take, List.length_drop]
    omega
  show (readBytes (n * 4) >>= fun tmp =>
      if tmp.length % 4 = 0
      then pure ((chunks4 tmp).map Decoder.beVal)
      else throwM .valueError) s = _
  rw [M.run_bind, M.run_readBytes]
  simp only [hlen2, Nat.mul_mod_left, if_pos, M.run_pure]

/-- Claim C2: a trace block whose 20-byte header declares k trace header
extensions (0 to 7, the value of byte 9) reads the header, then exactly
extension blocks 1 through k, in ascending order, each decoded from the
next consecutive 32-byte window, merges exactly those blocks into the
record, reads the size * 4 sample bytes, and leaves the cursor at
pos + 20 + 32 * k + size * 4 — so no byte of extension block k + 1 is
consumed. -/
theorem c2_trace_header_extensions (data : List Nat) (pos size k : Nat)
    (hv : ∀ b ∈ data, b < 256) (hk : k ≤ 7)
    (hlen : 20 + 32 * k + size * 4 ≤ (data.drop pos).length)
    (hext : Decoder.beVal (slice (data.drop pos) 9 10) = k) :
    ∃ rec d,
      readTraceDataBlock size ⟨data, pos⟩
        = (.ok (rec, d), ⟨data, pos + (20 + 32 * k) + size * 4⟩) ∧
      rec.base.trace_header_extension = k ∧
      rec.eb1 = (if 1 ≤ k then (decodeEb1 (slice (data.drop pos) 20 52)).toOption else none) ∧
      rec.eb2 = (if 2 ≤ k then (decodeEb2 (slice (data.drop pos) 52 84)).toOption else none) ∧
      rec.eb3 = (if 3 ≤ k then (decodeEb3 (slice (data.drop pos) 84 116)).toOption else none) ∧
      rec.eb4 = (if 4 ≤ k then (decodeEb4 (slice (data.drop pos) 116 148)).toOption else none) ∧
      rec.eb5 = (if 5 ≤ k then (decodeEb5 (slice (data.drop pos) 148 180)).toOption else none) ∧
      rec.eb6 = (if 6 ≤ k then (decodeEb6 (slice (data.drop pos) 180 212)).toOption else none) ∧
      rec.eb7 = (if 7 ≤ k then (decodeEb7 (slice (data.drop pos) 212 244)).toOption else none) := by
  rw [List.length_drop] at hlen
  have hDD : ∀ a : Nat, (data.drop pos).drop a = data.drop (pos + a) := by
    intro a
    rw [List.drop_drop, Nat.add_comm]
  have hWin : ∀ a n c : Nat, a + n = c →
      (data.drop (pos + a)).take n = slice (data.drop pos) a c := by
    intro a n c hc
    subst hc
    rw [← hDD a, List.take_drop]
    rfl
  have hWlen : ∀ a n : Nat, a + n ≤ 20 + 32 * k + size * 4 →
      ((data.drop (pos + a)).take n).length = n := by
    intro a n han
    rw [List.length_take, List.length_drop]
    omega
  have hv20 : ∀ b ∈ (data.drop pos).take 20, b < 256 :=
    fun b hb => hv b (List.mem_of_mem_drop (List.mem_of_mem_take hb))
  obtain ⟨th, hthok, hthext⟩ := decodeTraceh_ok hv20
  have h20len : ((data.drop pos).take 20).length = 20 := by
    rw [List.length_take, List.length_drop]
    omega
  have hs1 : readTraceh ⟨data, pos⟩ = (.ok th, ⟨data, pos + 20⟩) := by
    rw [readTraceh_run]
    simp only [hthok, h20len]
  have hthk : th.trace_header_extension = k := by
    rw [hthext, slice_take _ 20 9 10 (by omega), hext]
  interval_cases k
  · -- k = 0
    have hloop : readEbLoop 0 th.trace_header_extension
        (⟨th, none, none, none, none, none, none, none⟩ : TraceRec) ⟨data, pos + 20⟩
        = (.ok ⟨th, none, none, none, none, none, none, none⟩, ⟨data, pos + 20⟩) := by
      rw [hthk]
      rfl
    have hdata := readTraceData_run (n := size) (s := ⟨data, pos + 20⟩)
      (by show size * 4 ≤ data.length - (pos + 20); omega)
    have hall : readTraceDataBlock size ⟨data, pos⟩
        = (.ok (⟨th, none, none, none, none, none, none, none⟩,
            (chunks4 ((data.drop (pos + 20)).take (size * 4))).map Decoder.beVal),
           ⟨data, pos + 20 + size * 4⟩) :=
      calc readTraceDataBlock size ⟨data, pos⟩
          = (readEbLoop 0 th.trace_header_extension
              (⟨th, none, none, none, none, none, none, none⟩ : TraceRec) >>= fun r =>
             readTraceData size >>= fun d => pure (r, d)) ⟨data, pos + 20⟩ := M.run_bind_ok hs1
        _ = (readTraceData size >>= fun d =>
              pure ((⟨th, none, none, none, none, none, none, none⟩ : TraceRec), d))
              ⟨data, pos + 20⟩ := M.run_bind_ok hloop
        _ = (.ok (⟨th, none, none, none, none, none, none, none⟩,
              (chunks4 ((data.drop (pos + 20)).take (size * 4))).map Decoder.beVal),
             ⟨data, pos + 20 + size * 4⟩) := M.run_bind_ok hdata
    exact ⟨_, _, hall, hthk, rfl, rfl, rfl, rfl, rfl, rfl, rfl⟩
  · -- k = 1
    obtain ⟨e1, he1⟩ := decodeEb1_ok _ (hWlen 20 32 (by omega))
    have c0 := ebChain0 (⟨th, none, none, none, none, none, none, none⟩ : TraceRec)
      he1 (hWlen 20 32 (by omega))
    rw [(by omega : pos + 20 + 32 = pos + 52)] at c0
    have hloop : readEbLoop 0 th.trace_header_extension
        (⟨th, none, none, none, none, none, none, none⟩ : TraceRec) ⟨data, pos + 20⟩
        = (.ok ⟨th, some e1, none, none, none, none, none, none⟩, ⟨data, pos + 52⟩) := by
      rw [hthk]
      calc readEbLoop 0 1 (⟨th, none, none, none, none, none, none, none⟩ : TraceRec)
            ⟨data, pos + 20⟩
          = readEbLoop 1 0 (⟨th, some e1, none, none, none, none, none, none⟩ : TraceRec)
            ⟨data, pos + 52⟩ := M.run_bind_ok c0
        _ = (.ok ⟨th, some e1, none, none, none, none, none, none⟩, ⟨data, pos + 52⟩) := rfl
    have hdata := readTraceData_run (n := size) (s := ⟨data, pos + 52⟩)
      (by show size * 4 ≤ data.length - (pos + 52); omega)
    have hall : readTraceDataBlock size ⟨data, pos⟩
        = (.ok (⟨th, some e1, none, none, none, none, none, none⟩,
            (chunks4 ((data.drop (pos + 52)).take (size * 4))).map Decoder.beVal),
           ⟨data, pos + 52 + size * 4⟩) :=
      calc readTraceDataBlock size ⟨data, pos⟩
          = (readEbLoop 0 th.trace_header_extension
              (⟨th, none, none, none, none, none, none, none⟩ : TraceRec) >>= fun r =>
             readTraceData size >>= fun d => pure (r, d)) ⟨data, pos + 20⟩ := M.run_bind_ok hs1
        _ = (readTraceData size >>= fun d =>
              pure ((⟨th, some e1, none, none, none, none, none, none⟩ : TraceRec), d))
              ⟨data, pos + 52⟩ := M.run_bind_ok hloop
        _ = (.ok (⟨th, some e1, none, none, none, none, none, none⟩,
              (chunks4 ((data.drop (pos + 52)).take (size * 4))).map Decoder.beVal),
             ⟨data, pos + 52 + size * 4⟩) := M.run_bind_ok hdata
    refine ⟨_, _, hall, hthk, ?_, rfl, rfl, rfl, rfl, rfl, rfl⟩
    rw [← hWin 20 32 52 (by norm_num), he1]
    rfl
  · -- k = 2
    obtain ⟨e1, he1⟩ := decodeEb1_ok _ (hWlen 20 32 (by omega))
    obtain ⟨e2, he2⟩ := decodeEb2_ok _ (hWlen 52 32 (by omega))
    have c0 := ebChain0 (⟨th, none, none, none, none, none, none, none⟩ : TraceRec)
      he1 (hWlen 20 32 (by omega))
    have c1 := ebChain1 (⟨th, some e1, none, none, none, none, none, none⟩ : TraceRec)
      he2 (hWlen 52 32 (by omega))
    rw [(by omega : pos + 20 + 32 = pos + 52)] at c0
    rw [(by omega : pos + 52 + 32 = pos + 84)] at c1
    have hloop : readEbLoop 0 th.trace_header_extension
        (⟨th, none, none, none, none, none, none, none⟩ : TraceRec) ⟨data, pos + 20⟩
        = (.ok ⟨th, some e1, some e2, none, none, none, none, none⟩, ⟨data, pos + 84⟩) := by
      rw [hthk]
      calc readEbLoop 0 2 (⟨th, none, none, none, none, none, none, none⟩ : TraceRec)
            ⟨data, pos + 20⟩
          = readEbLoop 1 1 (⟨th, some e1, none, none, none, none, none, none⟩ : TraceRec)
            ⟨data, pos + 52⟩ := M.run_bind_ok c0
        _ = readEbLoop 2 0 (⟨th, some e1, some e2, none, none, none, none, none⟩ : TraceRec)
            ⟨data, pos + 84⟩ := M.run_bind_ok c1
        _ = (.ok ⟨th, some e1, some e2, none, none, none, none, none⟩, ⟨data, pos + 84⟩) := rfl
    have hdata := readTraceData_run (n := size) (s := ⟨data, pos + 84⟩)
      (by show size * 4 ≤ data.length - (pos + 84); omega)
    have hall : readTraceDataBlock size ⟨data, pos⟩
        = (.ok (⟨th, some e1, some e2, none, none, none, none, none⟩,
            (chunks4 ((data.drop (pos + 84)).take (size * 4))).map Decoder.beVal),
           ⟨data, pos + 84 + size * 4⟩) :=
      calc readTraceDataBlock size ⟨data, pos⟩
          = (readEbLoop 0 th.trace_header_extension
              (⟨th, none, none, none, none, none, none, none⟩ : TraceRec) >>= fun r =>
             readTraceData size >>= fun d => pure (r, d)) ⟨data, pos + 20⟩ := M.run_bind_ok hs1
        _ = (readTraceData size >>= fun d =>
              pure ((⟨th, some e1, some e2, none, none, none, none, none⟩ : TraceRec), d))
              ⟨data, pos + 84⟩ := M.run_bind_ok hloop
        _ = (.ok (⟨th, some e1, some e2, none, none, none, none, none⟩,
              (chunks4 ((data.drop (pos + 84)).take (size * 4))).map Decoder.beVal),
             ⟨data, pos + 84 + size * 4⟩) := M.run_bind_ok hdata
    refine ⟨_, _, hall, hthk, ?_, ?_, rfl, rfl, rfl, rfl, rfl⟩
    · rw [← hWin 20 32 52 (by norm_num), he1]
      rfl
    · rw [← hWin 52 32 84 (by norm_num), he2]
      rfl
  · -- k = 3
    obtain ⟨e1, he1⟩ := decodeEb1_ok _ (hWlen 20 32 (by omega))
    obtain ⟨e2, he2⟩ := decodeEb2_ok _ (hWlen 52 32 (by omega))
    obtain ⟨e3, he3⟩ := decodeEb3_ok _ (hWlen 84 32 (by omega))
    have c0 := ebChain0 (⟨th, none, none, none, none, none, none, none⟩ : TraceRec)
      he1 (hWlen 20 32 (by omega))
    have c1 := ebChain1 (⟨th, some e1, none, none, none, none, none, none⟩ : TraceRec)
      he2 (hWlen 52 32 (by omega))
    have c2e := ebChain2 (⟨th, some e1, some e2, none, none, none, none, none⟩ : TraceRec)
      he3 (hWlen 84 32 (by omega))
    rw [(by omega : pos + 20 + 32 = pos + 52)] at c0
    rw [(by omega : pos + 52 + 32 = pos + 84)] at c1
    rw [(by omega : pos + 84 + 32 = pos + 116)] at c2e
    have hloop : readEbLoop 0 th.trace_header_extension
        (⟨th, none, none, none, none, none, none, none⟩ : TraceRec) ⟨data, pos + 20⟩
        = (.ok ⟨th, some e1, some e2, some e3, none, none, none, none⟩, ⟨data, pos + 116⟩) := by
      rw [hthk]
      calc readEbLoop 0 3 (⟨th, none, none, none, none, none, none, none⟩ : TraceRec)
            ⟨data, pos + 20⟩
          = readEbLoop 1 2 (⟨th, some e1, none, none, none, none, none, none⟩ : TraceRec)
            ⟨data, pos + 52⟩ := M.run_bind_ok c0
        _ = readEbLoop 2 1 (⟨th, some e1, some e2, none, none, none, none, none⟩ : TraceRec)
            ⟨data, pos + 84⟩ := M.run_bind_ok c1
        _ = readEbLoop 3 0 (⟨th, some e1, some e2, some e3, none, none, none, none⟩ : TraceRec)
            ⟨data, pos + 116⟩ := M.run_bind_ok c2e
        _ = (.ok ⟨th, some e1, some e2, some e3, none, none, none, none⟩, ⟨data, pos + 116⟩) := rfl
    have hdata := readTraceData_run (n := size) (s := ⟨data, pos + 116⟩)
      (by show size * 4 ≤ data.length - (pos + 116); omega)
    have hall : readTraceDataBlock size ⟨data, pos⟩
        = (.ok (⟨th, some e1, some e2, some e3, none, none, none, none⟩,
            (chunks4 ((data.drop (pos + 116)).take (size * 4))).map Decoder.beVal),
           ⟨data, pos + 116 + size * 4⟩) :=
      calc readTraceDataBlock size ⟨data, pos⟩
          = (readEbLoop 0 th.trace_header_extension
              (⟨th, none, none, none, none, none, none, none⟩ : TraceRec) >>= fun r =>
             readTraceData size >>= fun d => pure (r, d)) ⟨data, pos + 20⟩ := M.run_bind_ok hs1
        _ = (readTraceData size >>= fun d =>
              pure ((⟨th, some e1, some e2, some e3, none, none, none, none⟩ : TraceRec), d))
              ⟨data, pos + 116⟩ := M.run_bind_ok hloop
        _ = (.ok (⟨th, some e1, some e2, some e3, none, none, none, none⟩,
              (chunks4 ((data.drop (pos + 116)).take (size * 4))).map Decoder.beVal),
             ⟨data, pos + 116 + size * 4⟩) := M.run_bind_ok hdata
    refine ⟨_, _, hall, hthk, ?_, ?_, ?_, rfl, rfl, rfl, rfl⟩
    · rw [← hWin 20 32 52 (by norm_num), he1]
      rfl
    · rw [← hWin 52 32 84 (by norm_num), he2]
      rfl
    · rw [← hWin 84 32 116 (by norm_num), he3]
      rfl
  · -- k = 4
    obtain ⟨e1, he1⟩ := decodeEb1_ok _ (hWlen 20 32 (by omega))
    obtain ⟨e2, he2⟩ := decodeEb2_ok _ (hWlen 52 32 (by omega))
    obtain ⟨e3, he3⟩ := decodeEb3_ok _ (hWlen 84 32 (by omega))
    obtain ⟨e4, he4⟩ := decodeEb4_ok _ (hWlen 116 32 (by omega))
    have c0 := ebChain0 (⟨th, none, none, none, none, none, none, none⟩ : TraceRec)
      he1 (hWlen 20 32 (by omega))
    have c1 := ebChain1 (⟨th, some e1, none, none, none, none, none, none⟩ : TraceRec)
      he2 (hWlen 52 32 (by omega))
    have c2e := ebChain2 (⟨th, some e1, some e2, none, none, none, none, none⟩ : TraceRec)
      he3 (hWlen 84 32 (by omega))
    have c3e := ebChain3 (⟨th, some e1, some e2, some e3, none, none, none, none⟩ : TraceRec)
      he4 (hWlen 116 32 (by omega))
    rw [(by omega : pos + 20 + 32 = pos + 52)] at c0
    rw [(by omega : pos + 52 + 32 = pos + 84)] at c1
    rw [(by omega : pos + 84 + 32 = pos + 116)] at c2e
    rw [(by omega : pos + 116 + 32 = pos + 148)] at c3e
    have hloop : readEbLoop 0 th.trace_header_extension
        (⟨th, none, none, none, none, none, none, none⟩ : TraceRec) ⟨data, pos + 20⟩
        = (.ok ⟨th, some e1, some e2, some e3, some e4, none, none, none⟩,
           ⟨data, pos + 148⟩) := by
      rw [hthk]
      calc readEbLoop 0 4 (⟨th, none, none, none, none, none, none, none⟩ : TraceRec)
            ⟨data, pos + 20⟩
          = readEbLoop 1 3 (⟨th, some e1, none, none, none, none, none, none⟩ : TraceRec)
            ⟨data, pos + 52⟩ := M.run_bind_ok c0
        _ = readEbLoop 2 2 (⟨th, some e1, some e2, none, none, none, none, none⟩ : TraceRec)
            ⟨data, pos + 84⟩ := M.run_bind_ok c1
        _ = readEbLoop 3 1 (⟨th, some e1, some e2, some e3, none, none, none, none⟩ : TraceRec)
            ⟨data, pos + 116⟩ := M.run_bind_ok c2e
        _ = readEbLoop 4 0 (⟨th, some e1, some e2, some e3, some e4, none, none, none⟩ : TraceRec)
            ⟨data, pos + 148⟩ := M.run_bind_ok c3e
        _ = (.ok ⟨th, some e1, some e2, some e3, some e4, none, none, none⟩,
             ⟨data, pos + 148⟩) := rfl
    have hdata := readTraceData_run (n := size) (s := ⟨data, pos + 148⟩)
      (by show size * 4 ≤ data.length - (pos + 148); omega)
    have hall : readTraceDataBlock size ⟨data, pos⟩
        = (.ok (⟨th, some e1, some e2, some e3, some e4, none, none, none⟩,
            (chunks4 ((data.drop (pos + 148)).take (size * 4))).map Decoder.beVal),
           ⟨data, pos + 148 + size * 4⟩) :=
      calc readTraceDataBlock size ⟨data, pos⟩
          = (readEbLoop 0 th.trace_header_extension
              (⟨th, none, none, none, none, none, none, none⟩ : TraceRec) >>= fun r =>
             readTraceData size >>= fun d => pure (r, d)) ⟨data, pos + 20⟩ := M.run_bind_ok hs1
        _ = (readTraceData size >>= fun d =>
              pure ((⟨th, some e1, some e2, some e3, some e4, none, none, none⟩ : TraceRec), d))
              ⟨data, pos + 148⟩ := M.run_bind_ok hloop
        _ = (.ok (⟨th, some e1, some e2, some e3, some e4, none, none, none⟩,
              (chunks4 ((data.drop (pos + 148)).take (size * 4))).map Decoder.beVal),
             ⟨data, pos + 148 + size * 4⟩) := M.run_bind_ok hdata
    refine ⟨_, _, hall, hthk, ?_, ?_, ?_, ?_, rfl, rfl, rfl⟩
    · rw [← hWin 20 32 52 (by norm_num), he1]
      rfl
    · rw [← hWin 52 32 84 (by norm_num), he2]
      rfl
    · rw [← hWin 84 32 116 (by norm_num), he3]
      rfl
    · rw [← hWin 116 32 148 (by norm_num), he4]
      rfl
  · -- k = 5
    obtain ⟨e1, he1⟩ := decodeEb1_ok _ (hWlen 20 32 (by omega))
    obtain ⟨e2, he2⟩ := decodeEb2_ok _ (hWlen 52 32 (by omega))
    obtain ⟨e3, he3⟩ := decodeEb3_ok _ (hWlen 84 32 (by omega))
    obtain ⟨e4, he4⟩ := decodeEb4_ok _ (hWlen 116 32 (by omega))
    obtain ⟨e5, he5⟩ := decodeEb5_ok _ (hWlen 148 32 (by omega))
    have c0 := ebChain0 (⟨th, none, none, none, none, none, none, none⟩ : TraceRec)
      he1 (hWlen 20 32 (by omega))
    have c1 := ebChain1 (⟨th, some e1, none, none, none, none, none, none⟩ : TraceRec)
      he2 (hWlen 52 32 (by omega))
    have c2e := ebChain2 (⟨th, some e1, some e2, none, none, none, none, none⟩ : TraceRec)
      he3 (hWlen 84 32 (by omega))
    have c3e := ebChain3 (⟨th, some e1, some e2, some e3, none, none, none, none⟩ : TraceRec)
      he4 (hWlen 116 32 (by omega))
    have c4e := ebChain4 (⟨th, some e1, some e2, some e3, some e4, none, none, none⟩ : TraceRec)
      he5 (hWlen 148 32 (by omega))
    rw [(by omega : pos + 20 + 32 = pos + 52)] at c0
    rw [(by omega : pos + 52 + 32 = pos + 84)] at c1
    rw [(by omega : pos + 84 + 32 = pos + 116)] at c2e
    rw [(by omega : pos + 116 + 32 = pos + 148)] at c3e
    rw [(by omega : pos + 148 + 32 = pos + 180)] at c4e
    have hloop : readEbLoop 0 th.trace_header_extension
        (⟨th, none, none, none, none, none, none, none⟩ : TraceRec) ⟨data, pos + 20⟩
        = (.ok ⟨th, some e1, some e2, some e3, some e4, some e5, none, none⟩,
           ⟨data, pos + 180⟩) := by
      rw [hthk]
      calc readEbLoop 0 5 (⟨th, none, none, none, none, none, none, none⟩ : TraceRec)
            ⟨data, pos + 20⟩
          = readEbLoop 1 4 (⟨th, some e1, none, none, none, none, none, none⟩ : TraceRec)
            ⟨data, pos + 52⟩ := M.run_bind_ok c0
        _ = readEbLoop 2 3 (⟨th, some e1, some e2, none, none, none, none, none⟩ : TraceRec)
            ⟨data, pos + 84⟩ := M.run_bind_ok c1
        _ = readEbLoop 3 2 (⟨th, some e1, some e2, some e3, none, none, none, none⟩ : TraceRec)
            ⟨data, pos + 116⟩ := M.run_bind_ok c2e
        _ = readEbLoop 4 1 (⟨th, some e1, some e2, some e3, some e4, none, none, none⟩ : TraceRec)
            ⟨data, pos + 148⟩ := M.run_bind_ok c3e
        _ = readEbLoop 5 0 (⟨th, some e1, some e2, some e3, some e4, some e5, none, none⟩ : TraceRec)
            ⟨data, pos + 180⟩ := M.run_bind_ok c4e
        _ = (.ok ⟨th, some e1, some e2, some e3, some e4, some e5, none, none⟩,
             ⟨data, pos + 180⟩) := rfl
    have hdata := readTraceData_run (n := size) (s := ⟨data, pos + 180⟩)
      (by show size * 4 ≤ data.length - (pos + 180); omega)
    have hall : readTraceDataBlock size ⟨data, pos⟩
        = (.ok (⟨th, some e1, some e2, some e3, some e4, some e5, none, none⟩,
            (chunks4 ((data.drop (pos + 180)).take (size * 4))).map Decoder.beVal),
           ⟨data, pos + 180 + size * 4⟩) :=
      calc readTraceDataBlock size ⟨data, pos⟩
          = (readEbLoop 0 th.trace_header_extension
              (⟨th, none, none, none, none, none, none, none⟩ : TraceRec) >>= fun r =>
             readTraceData size >>= fun d => pure (r, d)) ⟨data, pos + 20⟩ := M.run_bind_ok hs1
        _ = (readTraceData size >>= fun d =>
              pure ((⟨th, some e1, some e2, some e3, some e4, some e5, none, none⟩ : TraceRec), d))
              ⟨data, pos + 180⟩ := M.run_bind_ok hloop
        _ = (.ok (⟨th, some e1, some e2, some e3, some e4, some e5, none, none⟩,
              (chunks4 ((data.drop (pos + 180)).take (size * 4))).map Decoder.beVal),
             ⟨data, pos + 180 + size * 4⟩) := M.run_bind_ok hdata
    refine ⟨_, _, hall, hthk, ?_, ?_, ?_, ?_, ?_, rfl, rfl⟩
    · rw [← hWin 20 32 52 (by norm_num), he1]
      rfl
    · rw [← hWin 52 32 84 (by norm_num), he2]
      rfl
    · rw [← hWin 84 32 116 (by norm_num), he3]
      rfl
    · rw [← hWin 116 32 148 (by norm_num), he4]
      rfl
    · rw [← hWin 148 32 180 (by norm_num), he5]
      rfl
  · -- k = 6
    obtain ⟨e1, he1⟩ := decodeEb1_ok _ (hWlen 20 32 (by omega))
    obtain ⟨e2, he2⟩ := decodeEb2_ok _ (hWlen 52 32 (by omega))
    obtain ⟨e3, he3⟩ := decodeEb3_ok _ (hWlen 84 32 (by omega))
    obtain ⟨e4, he4⟩ := decodeEb4_ok _ (hWlen 116 32 (by omega))
    obtain ⟨e5, he5⟩ := decodeEb5_ok _ (hWlen 148 32 (by omega))
    obtain ⟨e6, he6⟩ := decodeEb6_ok _ (hWlen 180 32 (by omega))
    have c0 := ebChain0 (⟨th, none, none, none, none, none, none, none⟩ : TraceRec)
      he1 (hWlen 20 32 (by omega))
    have c1 := ebChain1 (⟨th, some e1, none, none, none, none, none, none⟩ : TraceRec)
      he2 (hWlen 52 32 (by omega))
    have c2e := ebChain2 (⟨th, some e1, some e2, none, none, none, none, none⟩ : TraceRec)
      he3 (hWlen 84 32 (by omega))
    have c3e := ebChain3 (⟨th, some e1, some e2, some e3, none, none, none, none⟩ : TraceRec)
      he4 (hWlen 116 32 (by omega))
    have c4e := ebChain4 (⟨th, some e1, some e2, some e3, some e4, none, none, none⟩ : TraceRec)
      he5 (hWlen 148 32 (by omega))
    have c5e := ebChain5 (⟨th, some e1, some e2, some e3, some e4, some e5, none, none⟩ : TraceRec)
      he6 (hWlen 180 32 (by omega))
    rw [(by omega : pos + 20 + 32 = pos + 52)] at c0
    rw [(by omega : pos + 52 + 32 = pos + 84)] at c1
    rw [(by omega : pos + 84 + 32 = pos + 116)] at c2e
    rw [(by omega : pos + 116 + 32 = pos + 148)] at c3e
    rw [(by omega : pos + 148 + 32 = pos + 180)] at c4e
    rw [(by omega : pos + 180 + 32 = pos + 212)] at c5e
    have hloop : readEbLoop 0 th.trace_header_extension
        (⟨th, none, none, none, none, none, none, none⟩ : TraceRec) ⟨data, pos + 20⟩
        = (.ok ⟨th, some e1, some e2, some e3, some e4, some e5, some e6, none⟩,
           ⟨data, pos + 212⟩) := by
      rw [hthk]
      calc readEbLoop 0 6 (⟨th, none, none, none, none, none, none, none⟩ : TraceRec)
            ⟨data, pos + 20⟩
          = readEbLoop 1 5 (⟨th, some e1, none, none, none, none, none, none⟩ : TraceRec)
            ⟨data, pos + 52⟩ := M.run_bind_ok c0
        _ = readEbLoop 2 4 (⟨th, some e1, some e2, none, none, none, none, none⟩ : TraceRec)
            ⟨data, pos + 84⟩ := M.run_bind_ok c1
        _ = readEbLoop 3 3 (⟨th, some e1, some e2, some e3, none, none, none, none⟩ : TraceRec)
            ⟨data, pos + 116⟩ := M.run_bind_ok c2e
        _ = readEbLoop 4 2 (⟨th, some e1, some e2, some e3, some e4, none, none, none⟩ : TraceRec)
            ⟨data, pos + 148⟩ := M.run_bind_ok c3e
        _ = readEbLoop 5 1 (⟨th, some e1, some e2, some e3, some e4, some e5, none, none⟩ : TraceRec)
            ⟨data, pos + 180⟩ := M.run_bind_ok c4e
        _ = readEbLoop 6 0 (⟨th, some e1, some e2, some e3, some e4, some e5, some e6, none⟩ : TraceRec)
            ⟨data, pos + 212⟩ := M.run_bind_ok c5e
        _ = (.ok ⟨th, some e1, some e2, some e3, some e4, some e5, some e6, none⟩,
             ⟨data, pos + 212⟩) := rfl
    have hdata := readTraceData_run (n := size) (s := ⟨data, pos + 212⟩)
      (by show size * 4 ≤ data.length - (pos + 212); omega)
    have hall : readTraceDataBlock size ⟨data, pos⟩
        = (.ok (⟨th, some e1, some e2, some e3, some e4, some e5, some e6, none⟩,
            (chunks4 ((data.drop (pos + 212)).take (size * 4))).map Decoder.beVal),
           ⟨data, pos + 212 + size * 4⟩) :=
      calc readTraceDataBlock size ⟨data, pos⟩
          = (readEbLoop 0 th.trace_header_extension
              (⟨th, none, none, none, none, none, none, none⟩ : TraceRec) >>= fun r =>
             readTraceData size >>= fun d => pure (r, d)) ⟨data, pos + 20⟩ := M.run_bind_ok hs1
        _ = (readTraceData size >>= fun d =>
              pure ((⟨th, some e1, some e2, some e3, some e4, some e5, some e6, none⟩ : TraceRec), d))
              ⟨data, pos + 212⟩ := M.run_bind_ok hloop
        _ = (.ok (⟨th, some e1, some e2, some e3, some e4, some e5, some e6, none⟩,
              (chunks4 ((data.drop (pos + 212)).take (size * 4))).map Decoder.beVal),
             ⟨data, pos + 212 + size * 4⟩) := M.run_bind_ok hdata
    refine ⟨_, _, hall, hthk, ?_, ?_, ?_, ?_, ?_, ?_, rfl⟩
    · rw [← hWin 20 32 52 (by norm_num), he1]
      rfl
    · rw [← hWin 52 32 84 (by norm_num), he2]
      rfl
    · rw [← hWin 84 32 116 (by norm_num), he3]
      rfl
    · rw [← hWin 116 32 148 (by norm_num), he4]
      rfl
    · rw [← hWin 148 32 180 (by norm_num), he5]
      rfl
    · rw [← hWin 180 32 212 (by norm_num), he6]
      rfl
  · -- k = 7
    obtain ⟨e1, he1⟩ := decodeEb1_ok _ (hWlen 20 32 (by omega))
    obtain ⟨e2, he2⟩ := decodeEb2_ok _ (hWlen 52 32 (by omega))
    obtain ⟨e3, he3⟩ := decodeEb3_ok _ (hWlen 84 32 (by omega))
    obtain ⟨e4, he4⟩ := decodeEb4_ok _ (hWlen 116 32 (by omega))
    obtain ⟨e5, he5⟩ := decodeEb5_ok _ (hWlen 148 32 (by omega))
    obtain ⟨e6, he6⟩ := decodeEb6_ok _ (hWlen 180 32 (by omega))
    obtain ⟨e7, he7⟩ := decodeEb7_ok _ (hWlen 212 32 (by omega))
    have c0 := ebChain0 (⟨th, none, none, none, none, none, none, none⟩ : TraceRec)
      he1 (hWlen 20 32 (by omega))
    have c1 := ebChain1 (⟨th, some e1, none, none, none, none, none, none⟩ : TraceRec)
      he2 (hWlen 52 32 (by omega))
    have c2e := ebChain2 (⟨th, some e1, some e2, none, none, none, none, none⟩ : TraceRec)
      he3 (hWlen 84 32 (by omega))
    have c3e := ebChain3 (⟨th, some e1, some e2, some e3, none, none, none, none⟩ : TraceRec)
      he4 (hWlen 116 32 (by omega))
    have c4e := ebChain4 (⟨th, some e1, some e2, some e3, some e4, none, none, none⟩ : TraceRec)
      he5 (hWlen 148 32 (by omega))
    have c5e := ebChain5 (⟨th, some e1, some e2, some e3, some e4, some e5, none, none⟩ : TraceRec)
      he6 (hWlen 180 32 (by omega))
    have c6e := ebChain6 (⟨th, some e1, some e2, some e3, some e4, some e5, some e6, none⟩ : TraceRec)
      he7 (hWlen 212 32 (by omega))
    rw [(by omega : pos + 20 + 32 = pos + 52)] at c0
    rw [(by omega : pos + 52 + 32 = pos + 84)] at c1
    rw [(by omega : pos + 84 + 32 = pos + 116)] at c2e
    rw [(by omega : pos + 116 + 32 = pos + 148)] at c3e
    rw [(by omega : pos + 148 + 32 = pos + 180)] at c4e
    rw [(by omega : pos + 180 + 32 = pos + 212)] at c5e
    rw [(by omega : pos + 212 + 32 = pos + 244)] at c6e
    have hloop : readEbLoop 0 th.trace_header_extension
        (⟨th, none, none, none, none, none, none, none⟩ : TraceRec) ⟨data, pos + 20⟩
        = (.ok ⟨th, some e1, some e2, some e3, some e4, some e5, some e6, some e7⟩,
           ⟨data, pos + 244⟩) := by
      rw [hthk]
      calc readEbLoop 0 7 (⟨th, none, none, none, none, none, none, none⟩ : TraceRec)
            ⟨data, pos + 20⟩
          = readEbLoop 1 6 (⟨th, some e1, none, none, none, none, none, none⟩ : TraceRec)
            ⟨data, pos + 52⟩ := M.run_bind_ok c0
        _ = readEbLoop 2 5 (⟨th, some e1, some e2, none, none, none, none, none⟩ : TraceRec)
            ⟨data, pos + 84⟩ := M.run_bind_ok c1
        _ = readEbLoop 3 4 (⟨th, some e1, some e2, some e3, none, none, none, none⟩ : TraceRec)
            ⟨data, pos + 116⟩ := M.run_bind_ok c2e
        _ = readEbLoop 4 3 (⟨th, some e1, some e2, some e3, some e4, none, none, none⟩ : TraceRec)
            ⟨data, pos + 148⟩ := M.run_bind_ok c3e
        _ = readEbLoop 5 2 (⟨th, some e1, some e2, some e3, some e4, some e5, none, none⟩ : TraceRec)
            ⟨data, pos + 180⟩ := M.run_bind_ok c4e
        _ = readEbLoop 6 1 (⟨th, some e1, some e2, some e3, some e4, some e5, some e6, none⟩ : TraceRec)
            ⟨data, pos + 212⟩ := M.run_bind_ok c5e
        _ = readEbLoop 7 0 (⟨th, some e1, some e2, some e3, some e4, some e5, some e6, some e7⟩ : TraceRec)
            ⟨data, pos + 244⟩ := M.run_bind_ok c6e
        _ = (.ok ⟨th, some e1, some e2, some e3, some e4, some e5, some e6, some e7⟩,
             ⟨data, pos + 244⟩) := rfl
    have hdata := readTraceData_run (n := size) (s := ⟨data, pos + 244⟩)
      (by show size * 4 ≤ data.length - (pos + 244); omega)
    have hall : readTraceDataBlock size ⟨data, pos⟩
        = (.ok (⟨th, some e1, some e2, some e3, some e4, some e5, some e6, some e7⟩,
            (chunks4 ((data.drop (pos + 244)).take (size * 4))).map Decoder.beVal),
           ⟨data, pos + 244 + size * 4⟩) :=
      calc readTraceDataBlock size ⟨data, pos⟩
          = (readEbLoop 0 th.trace_header_extension
              (⟨th, none, none, none, none, none, none, none⟩ : TraceRec) >>= fun r =>
             readTraceData size >>= fun d => pure (r, d)) ⟨data, pos + 20⟩ := M.run_bind_ok hs1
        _ = (readTraceData size >>= fun d =>
              pure ((⟨th, some e1, some e2, some e3, some e4, some e5, some e6, some e7⟩ : TraceRec), d))
              ⟨data, pos + 244⟩ := M.run_bind_ok hloop
        _ = (.ok (⟨th, some e1, some e2, some e3, some e4, some e5, some e6, some e7⟩,
              (chunks4 ((data.drop (pos + 244)).take (size * 4))).map Decoder.beVal),
             ⟨data, pos + 244 + size * 4⟩) := M.run_bind_ok hdata
    refine ⟨_, _, hall, hthk, ?_, ?_, ?_, ?_, ?_, ?_, ?_⟩
    · rw [← hWin 20 32 52 (by norm_num), he1]
      rfl
    · rw [← hWin 52 32 84 (by norm_num), he2]
      rfl
    · rw [← hWin 84 32 116 (by norm_num), he3]
      rfl
    · rw [← hWin 116 32 148 (by norm_num), he4]
      rfl
    · rw [← hWin 148 32 180 (by norm_num), he5]
      rfl
    · rw [← hWin 180 32 212 (by norm_num), he6]
      rfl
    · rw [← hWin 212 32 244 (by norm_num), he7]
      rfl

/-- Witness for C2 on a concrete 116-byte stream whose trace header
declares three extensions. -/
theorem c2_witness :
    ∃ rec d,
      readTraceDataBlock 0 ⟨[0, 0, 0, 0, 0, 0, 0, 0, 0, 3] ++ List.replicate 106 0, 0⟩
        = (.ok (rec, d),
           ⟨[0, 0, 0, 0, 0, 0, 0, 0, 0, 3] ++ List.replicate 106 0, 0 + (20 + 32 * 3) + 0 * 4⟩) ∧
      rec.base.trace_header_extension = 3 ∧
      rec.eb1 = (if 1 ≤ 3 then
        (decodeEb1 (slice (([0, 0, 0, 0, 0, 0, 0, 0, 0, 3] ++ List.replicate 106 0).drop 0) 20 52)).toOption
        else none) ∧
      rec.eb2 = (if 2 ≤ 3 then
        (decodeEb2 (slice (([0, 0, 0, 0, 0, 0, 0, 0, 0, 3] ++ List.replicate 106 0).drop 0) 52 84)).toOption
        else none) ∧
      rec.eb3 = (if 3 ≤ 3 then
        (decodeEb3 (slice (([0, 0, 0, 0, 0, 0, 0, 0, 0, 3] ++ List.replicate 106 0).drop 0) 84 116)).toOption
        else none) ∧
      rec.eb4 = (if 4 ≤ 3 then
        (decodeEb4 (slice (([0, 0, 0, 0, 0, 0, 0, 0, 0, 3] ++ List.replicate 106 0).drop 0) 116 148)).toOption
        else none) ∧
      rec.eb5 = (if 5 ≤ 3 then
        (decodeEb5 (slice (([0, 0, 0, 0, 0, 0, 0, 0, 0, 3] ++ List.replicate 106 0).drop 0) 148 180)).toOption
        else none) ∧
      rec.eb6 = (if 6 ≤ 3 then
        (decodeEb6 (slice (([0, 0, 0, 0, 0, 0, 0, 0, 0, 3] ++ List.replicate 106 0).drop 0) 180 212)).toOption
        else none) ∧
      rec.eb7 = (if 7 ≤ 3 then
        (decodeEb7 (slice (([0, 0, 0, 0, 0, 0, 0, 0, 0, 3] ++ List.replicate 106 0).drop 0) 212 244)).toOption
        else none) :=
  c2_trace_header_extensions ([0, 0, 0, 0, 0, 0, 0, 0, 0, 3] ++ List.replicate 106 0) 0 0 3
    (by decide) (by decide) (by decide) (by decide)

end SegD
